import Mathlib

/-!
# BLITZ-BOTS server: bot and plugin lifecycle

A shallow embedding of `src/server.js` (an Express application that keeps one
directory per bot under `~/blitz-bots`) and the properties of its route handlers.

Modelling choices, all stated once here:

* The filesystem is a finite table from absolute, normalised POSIX paths (lists of
  segments) to entries (a regular file with its text, or a directory).  There are no
  symbolic links and no permission, quota or name-length failures: an operation fails
  only for the reasons `fs` reports from the shape of the tree (`ENOENT`, `ENOTDIR`,
  `EEXIST`, `EISDIR`), for a path holding a NUL character (rejected by Node before any
  system call), or when asked to remove the filesystem root.
* `path.join` is modelled on segments: it splits at `/`, drops empty and `.` segments
  and lets `..` remove the segment before it.  A trailing separator survives
  `path.join`; it only matters when the path names a regular file, and is carried as a
  flag to the two calls that can see it.
* `JSON.parse` and `JSON.stringify` are builtins of the runtime, not code of the
  repository: they are a parameter (`JSONCodec`).  JSON strings are Lean strings and
  JSON numbers are integers.  An object is the list of its members in enumeration
  order (array indices first, ascending, then the other keys as they were added);
  reading a key takes the last member with that key, as `JSON.parse` does.
* The three collaborators (template source, plugin metadata service, git clone) are
  parameters giving the answer the outside world returns if it is asked; the handlers
  record every request they really make in a log.  An answer over HTTP is the value
  `response.data`: axios hands over the parsed value when the body is valid JSON and the
  text of the body otherwise.
* Request fields are strings (a missing `name` or `token` is the empty string), and the
  home directory is an absolute path.
* The order in which `readdir` lists a directory is left open: listings are compared by
  membership.
* Each handler runs to completion without interleaving with another request.
-/

namespace BlitzBots

/-! ## JSON values -/

/-- JSON values as produced by `JSON.parse` and by `express.json()`. -/
inductive Json where
  | null : Json
  | bool (b : Bool) : Json
  | num (n : Int) : Json
  | str (s : String) : Json
  | arr (items : List Json) : Json
  | obj (members : List (String × Json)) : Json

/-- The runtime's `JSON.parse` (`none` when it throws a `SyntaxError`) and
`JSON.stringify(value, null, 2)`. -/
structure JSONCodec where
  parse : String → Option Json
  stringify : Json → String

/-- Property read `o[k]` on the member list of an object: the last member named `k`. -/
def getProp : List (String × Json) → String → Option Json
  | [], _ => none
  | (k', v) :: rest, k =>
    match getProp rest k with
    | some w => some w
    | none => if k' = k then some v else none

/-- The array index a property key stands for: the key is the canonical decimal text of
a number below `2^32 - 1`.  Such keys are enumerated first, in ascending order. -/
def arrayIndex (k : String) : Option Nat :=
  match k.data with
  | [] => none
  | c :: cs =>
    if (c :: cs).all Char.isDigit ∧ (c ≠ '0' ∨ cs = []) then
      if (c :: cs).foldl (fun acc d => 10 * acc + (d.toNat - '0'.toNat)) 0 < 4294967295 then
        some ((c :: cs).foldl (fun acc d => 10 * acc + (d.toNat - '0'.toNat)) 0)
      else none
    else none

/-- A new member with array index `n` goes before the first member that is not an array
index or has a greater one. -/
def insertIndexed : List (String × Json) → String → Nat → Json → List (String × Json)
  | [], k, _, v => [(k, v)]
  | (k0, v0) :: rest, k, n, v =>
    match arrayIndex k0 with
    | some m =>
      if m < n then (k0, v0) :: insertIndexed rest k n v else (k, v) :: (k0, v0) :: rest
    | none => (k, v) :: (k0, v0) :: rest

/-- Definition of a data property on an object under construction: an existing key keeps
its place and takes the new value; a new key goes among the array indices when it is
one, and to the end otherwise. -/
def setProp (o : List (String × Json)) (k : String) (v : Json) : List (String × Json) :=
  if o.any (fun kv => kv.1 = k) then
    o.map (fun kv => if kv.1 = k then (k, v) else kv)
  else
    match arrayIndex k with
    | some n => insertIndexed o k n v
    | none => o ++ [(k, v)]

/-- Own enumerable properties of a value, as copied by object spread `...v`. -/
def ownEnumerable : Json → List (String × Json)
  | .obj members => members
  | .arr items => items.enum.map (fun ix => (toString ix.1, ix.2))
  | .str s => s.data.enum.map (fun ix => (toString ix.1, Json.str (String.singleton ix.2)))
  | _ => []

/-- Object spread: `spread target v` is the object literal `target` continued with `...v`. -/
def spread (target : List (String × Json)) (v : Json) : List (String × Json) :=
  (ownEnumerable v).foldl (fun acc kv => setProp acc kv.1 kv.2) target

/-- JavaScript truthiness of a JSON value (`undefined` is `none`). -/
def truthy : Option Json → Bool
  | none => false
  | some .null => false
  | some (.bool b) => b
  | some (.num n) => n != 0
  | some (.str s) => s != ""
  | some (.arr _) => true
  | some (.obj _) => true

/-- Property read `v.k` on an arbitrary non-nullish value. -/
def member (v : Json) (k : String) : Option Json :=
  match v with
  | .obj members => getProp members k
  | _ => none

/-! ## Paths -/

/-- An absolute normalised path: its segments from the filesystem root. -/
abbrev Path := List String

/-- Split a string at every `/`. -/
def splitSegments : List Char → List (List Char)
  | [] => [[]]
  | c :: cs =>
    if c = '/' then [] :: splitSegments cs
    else
      match splitSegments cs with
      | [] => [[c]]
      | s :: ss => (c :: s) :: ss

/-- The segments of a path string. -/
def segments (s : String) : List String :=
  (splitSegments s.data).map String.mk

/-- One step of `path.normalize` on an absolute path. -/
def normStep (acc : Path) (seg : String) : Path :=
  if seg = "" ∨ seg = "." then acc
  else if seg = ".." then acc.dropLast
  else acc ++ [seg]

/-- Normal form of a list of segments (`path.normalize`). -/
def normalize (segs : List String) : Path :=
  segs.foldl normStep []

/-- The call `path.join(base, s)` where `base` is already a path. -/
def pathJoin (base : Path) (s : String) : Path :=
  normalize (base ++ segments s)

/-- Whether `path.join(base, s)` ends with a separator, which it does when `s` does. -/
def trailingSep (s : String) : Bool :=
  s.data.getLast? = some '/'

/-- The constant `blitzBotsDirectory`: `path.join(os.homedir(), 'blitz-bots')`. -/
def blitzBotsDirectory (homedir : String) : Path :=
  normalize (segments homedir ++ ["blitz-bots"])

/-- Node rejects a path string that holds a NUL character. -/
def validPath (p : Path) : Bool :=
  p.all (fun seg => !seg.data.contains '\x00')

/-! ## The filesystem -/

/-- A filesystem entry. -/
inductive Entry where
  | file (content : String) : Entry
  | dir : Entry
  deriving DecidableEq, Repr

/-- Filesystem state: the table of existing paths. -/
abbrev FS := List (Path × Entry)

/-- Error codes raised by the calls the handlers make. -/
inductive JsError where
  | ENOENT | ENOTDIR | EEXIST | EISDIR | EBUSY
  | invalidArg
  | invalidArgType
  | syntaxError
  | requestFailed
  | gitFailed
  deriving DecidableEq, Repr

/-- The entry at a path, if any. -/
def stat : FS → Path → Option Entry
  | [], _ => none
  | (q, e) :: rest, p => if q = p then some e else stat rest p

/-- The call `fs.existsSync(p)`; `trailing` tells that the string ends with a separator. -/
def existsSync (fs : FS) (p : Path) (trailing : Bool) : Bool :=
  validPath p &&
    match stat fs p with
    | some .dir => true
    | some (.file _) => !trailing
    | none => false

/-- Creation of the listed directories in order, as `mkdir -p` walks the prefixes of its
target: an existing directory is kept, a regular file in the way stops the walk. -/
def mkdirAll (fs : FS) : List Path → FS × Option JsError
  | [] => (fs, none)
  | q :: qs =>
    match stat fs q with
    | some .dir => mkdirAll fs qs
    | some (.file _) => (fs, some (if qs = [] then .EEXIST else .ENOTDIR))
    | none => mkdirAll ((q, .dir) :: fs) qs

/-- The call `fs.mkdirSync(p, { recursive: true })`. -/
def mkdirSyncRecursive (fs : FS) (p : Path) : FS × Option JsError :=
  if validPath p then mkdirAll fs p.inits else (fs, some .invalidArg)

/-- The call `fs.mkdirSync(p)`. -/
def mkdirSync (fs : FS) (p : Path) : FS × Option JsError :=
  if validPath p then
    match stat fs p with
    | some _ => (fs, some .EEXIST)
    | none =>
      match stat fs p.dropLast with
      | some .dir => ((p, .dir) :: fs, none)
      | some (.file _) => (fs, some .ENOTDIR)
      | none => (fs, some .ENOENT)
  else (fs, some .invalidArg)

/-- The call `fs.writeFileSync(p, content)`. -/
def writeFileSync (fs : FS) (p : Path) (content : String) : FS × Option JsError :=
  if validPath p then
    match stat fs p with
    | some (.file _) => ((p, .file content) :: fs.filter (fun e => e.1 ≠ p), none)
    | some .dir => (fs, some .EISDIR)
    | none =>
      match stat fs p.dropLast with
      | some .dir => ((p, .file content) :: fs, none)
      | some (.file _) => (fs, some .ENOTDIR)
      | none => (fs, some .ENOENT)
  else (fs, some .invalidArg)

/-- The call `fs.writeFileSync(p, data)` with a value as a request delivers it: only a
string is accepted, any other value makes the call throw a `TypeError`. -/
def writeFileSyncValue (fs : FS) (p : Path) (data : Json) : FS × Option JsError :=
  match data with
  | .str content => writeFileSync fs p content
  | _ => (fs, some .invalidArgType)

/-- The call `fs.readFileSync(p, 'utf8')`. -/
def readFileSync (fs : FS) (p : Path) : Except JsError String :=
  if validPath p then
    match stat fs p with
    | some (.file content) => .ok content
    | some .dir => .error .EISDIR
    | none => .error .ENOENT
  else .error .invalidArg

/-- The name of an entry when it lies directly in directory `p`. -/
def childName (p : Path) (q : Path) : Option String :=
  match q.getLast? with
  | some n => if q.dropLast = p then some n else none
  | none => none

/-- The call `fs.readdir(p, { withFileTypes: true })` followed by
`.filter(file => file.isDirectory()).map(file => file.name)`. -/
def readdirDirectories (fs : FS) (p : Path) : Except JsError (List String) :=
  if validPath p then
    match stat fs p with
    | some .dir =>
      .ok (fs.filterMap (fun e =>
        match e.2 with
        | .dir => childName p e.1
        | .file _ => none))
    | some (.file _) => .error .ENOTDIR
    | none => .error .ENOENT
  else .error .invalidArg

/-- The call `fs.rm(p, { recursive: true, force: true })`: the whole tree at `p` goes.
The filesystem root itself cannot be removed; its contents go and the call fails. -/
def rmRecursive (fs : FS) (p : Path) : FS × Option JsError :=
  if p = [] then (fs.filter (fun e => e.1 = []), some .EBUSY)
  else (fs.filter (fun e => ¬ p <+: e.1), none)

/-- The call `git.clone(url, dest)`: `tree` is what the remote would deliver (paths
relative to the clone), `none` when the clone fails upstream.  Git makes the destination
and the directories leading to it, and fails when a regular file is in the way.  The
destination is free whenever `install` gets here. -/
def gitClone (fs : FS) (dest : Path) (tree : Option (List (Path × Entry))) :
    FS × Option JsError :=
  match tree with
  | none => (fs, some .gitFailed)
  | some entries =>
    if validPath dest then
      match stat fs dest with
      | none =>
        match mkdirAll fs dest.inits with
        | (fs1, none) => (fs1 ++ entries.map (fun e => (dest ++ e.1, e.2)), none)
        | (_, some _) => (fs, some .gitFailed)
      | some _ => (fs, some .gitFailed)
    else (fs, some .gitFailed)

/-! ## Responses and requests to collaborators -/

/-- Bodies sent with `res.json(...)` on success. -/
inductive Payload where
  | message (message : String) : Payload
  | directories (directories : List String) : Payload
  | created (message : String) (folder : Path) : Payload
  | botInfo (name : String) (directory : Path) (manifest : Json) (plugins : List String)
      (config : Json) : Payload
  | updated (message : String) (updatedConfig : Json) : Payload

/-- What a handler answers: a success body (status 200), an error body
`{ error, details }` with its status, or nothing because an exception left the handler. -/
inductive Response where
  | json (body : Payload) : Response
  | error (status : Nat) (error : String) (details : Option JsError) : Response
  | unhandled (e : JsError) : Response

/-- Requests a handler sends to the outside world. -/
inductive ExtCall where
  | templateFetch : ExtCall
  | pluginInfo (plugin_name : String) : ExtCall
  | clone (github_repo : Json) (dest : Path) : ExtCall

/-- Outcome of a handler that may call a collaborator. -/
structure Result where
  response : Response
  fs : FS
  calls : List ExtCall

/-! ## The server -/

/-- Startup, lines 15 to 17: the workspace root is created when it is missing. -/
def startup (homedir : String) (fs : FS) : FS :=
  if existsSync fs (blitzBotsDirectory homedir) false then fs
  else (mkdirSyncRecursive fs (blitzBotsDirectory homedir)).1

/-- Handler of `GET /directories`. -/
def list (homedir : String) (fs : FS) : Response :=
  match readdirDirectories fs (blitzBotsDirectory homedir) with
  | .error e => .error 500 "Failed to read directory" (some e)
  | .ok directories => .json (.directories directories)

/-- The document `{ bot_token: token, prefix: "!" }` written by `create`. -/
def configData (token : String) : Json :=
  .obj [("bot_token", .str token), ("prefix", .str "!")]

/-- Handler of `POST /create` with body `{ name, token }`; `template` is `response.data`
of the request to the template source (`none` when the request fails): the text of the
body, or the value it denotes when the body is valid JSON. -/
def create (J : JSONCodec) (homedir : String) (template : Option Json) (fs : FS)
    (name token : String) : Result :=
  if name = "" ∨ token = "" then
    ⟨.error 400 "Name and token are required" none, fs, []⟩
  else
    let newBotDirectory := pathJoin (blitzBotsDirectory homedir) name
    if existsSync fs newBotDirectory (trailingSep name) then
      ⟨.error 400 ("A bot with the name \"" ++ name ++ "\" already exists.") none, fs, []⟩
    else
      match mkdirSyncRecursive fs newBotDirectory with
      | (fs1, some e) => ⟨.error 500 "Failed to create bot folder" (some e), fs1, []⟩
      | (fs1, none) =>
        let pluginsFolder := pathJoin newBotDirectory "plugins"
        match mkdirSync fs1 pluginsFolder with
        | (fs2, some e) => ⟨.error 500 "Failed to create bot folder" (some e), fs2, []⟩
        | (fs2, none) =>
          match template with
          | none =>
            ⟨.error 500 "Failed to create bot folder" (some .requestFailed), fs2,
              [.templateFetch]⟩
          | some botJsCode =>
            let botJsPath := pathJoin newBotDirectory "bot.js"
            match writeFileSyncValue fs2 botJsPath botJsCode with
            | (fs3, some e) =>
              ⟨.error 500 "Failed to create bot folder" (some e), fs3, [.templateFetch]⟩
            | (fs3, none) =>
              let configFilePath := pathJoin newBotDirectory "config.json"
              match writeFileSync fs3 configFilePath (J.stringify (configData token)) with
              | (fs4, some e) =>
                ⟨.error 500 "Failed to create bot folder" (some e), fs4, [.templateFetch]⟩
              | (fs4, none) =>
                ⟨.json (.created ("Bot folder for \"" ++ name ++ "\" created successfully.")
                    newBotDirectory), fs4, [.templateFetch]⟩

/-- Handler of `POST /plugin/add/:app_name/:plugin_name`; `pluginInfo` is the body the
metadata service answers with (`none` when the request fails or the status is not 2xx),
`repoTree` what the clone would deliver. -/
def install (homedir : String) (pluginInfo : Option Json)
    (repoTree : Option (List (Path × Entry))) (fs : FS) (app_name plugin_name : String) :
    Result :=
  let botDirectory := pathJoin (blitzBotsDirectory homedir) app_name
  if !existsSync fs botDirectory (trailingSep app_name) then
    ⟨.error 404 ("Bot \"" ++ app_name ++ "\" not found.") none, fs, []⟩
  else
    let pluginsFolder := pathJoin botDirectory "plugins"
    match (if !existsSync fs pluginsFolder false then mkdirSync fs pluginsFolder
           else (fs, none)) with
    | (fs1, some e) => ⟨.unhandled e, fs1, []⟩
    | (fs1, none) =>
      match pluginInfo with
      | none =>
        ⟨.error 500 "Failed to add plugin" (some .requestFailed), fs1,
          [.pluginInfo plugin_name]⟩
      | some pluginData =>
        if !truthy (some pluginData) || !truthy (member pluginData "github_repo") then
          ⟨.error 404 ("Plugin \"" ++ plugin_name ++ "\" not found.") none, fs1,
            [.pluginInfo plugin_name]⟩
        else
          let pluginDirectory := pathJoin pluginsFolder plugin_name
          if existsSync fs1 pluginDirectory (trailingSep plugin_name) then
            ⟨.error 400 ("Plugin \"" ++ plugin_name ++ "\" already exists in the bot \""
                ++ app_name ++ "\".") none, fs1, [.pluginInfo plugin_name]⟩
          else
            let github_repo := (member pluginData "github_repo").getD .null
            match gitClone fs1 pluginDirectory repoTree with
            | (fs2, some e) =>
              ⟨.error 500 "Failed to add plugin" (some e), fs2,
                [.pluginInfo plugin_name, .clone github_repo pluginDirectory]⟩
            | (fs2, none) =>
              ⟨.json (.message ("Plugin \"" ++ plugin_name ++ "\" added to bot \""
                  ++ app_name ++ "\" successfully.")), fs2,
                [.pluginInfo plugin_name, .clone github_repo pluginDirectory]⟩

/-- The expression `JSON.parse(fs.readFileSync(p, 'utf8'))`. -/
def readJson (J : JSONCodec) (fs : FS) (p : Path) : Except JsError Json :=
  match readFileSync fs p with
  | .error e => .error e
  | .ok text =>
    match J.parse text with
    | none => .error .syntaxError
    | some v => .ok v

/-- Handler of `GET /app/:name`. -/
def inspect (J : JSONCodec) (homedir : String) (fs : FS) (name : String) : Response :=
  let botDirectory := pathJoin (blitzBotsDirectory homedir) name
  if !existsSync fs botDirectory (trailingSep name) then
    .error 404 ("Bot \"" ++ name ++ "\" not found.") none
  else
    let manifestPath := pathJoin botDirectory "manifest.json"
    match (if existsSync fs manifestPath false then readJson J fs manifestPath
           else .ok .null) with
    | .error e => .error 500 "Failed to retrieve bot information" (some e)
    | .ok manifest =>
      let pluginsDirectory := pathJoin botDirectory "plugins"
      match (if existsSync fs pluginsDirectory false then
               readdirDirectories fs pluginsDirectory
             else .ok []) with
      | .error e => .error 500 "Failed to retrieve bot information" (some e)
      | .ok pluginFolders =>
        let configPath := pathJoin botDirectory "config.json"
        match readJson J fs configPath with
        | .error e => .error 500 "Failed to retrieve bot information" (some e)
        | .ok config => .json (.botInfo name botDirectory manifest pluginFolders config)

/-- Handler of `PATCH /config/update/:name` with request body `body`. -/
def update (J : JSONCodec) (homedir : String) (fs : FS) (name : String) (body : Json) :
    Response × FS :=
  let botDirectory := pathJoin (blitzBotsDirectory homedir) name
  let configFilePath := pathJoin botDirectory "config.json"
  if !existsSync fs botDirectory (trailingSep name) then
    (.error 404 ("Bot \"" ++ name ++ "\" not found.") none, fs)
  else if !existsSync fs configFilePath false then
    (.error 404 ("Config file for bot \"" ++ name ++ "\" not found.") none, fs)
  else
    match readJson J fs configFilePath with
    | .error e => (.error 500 "Failed to update config" (some e), fs)
    | .ok currentConfig =>
      let updatedConfig := Json.obj (spread (spread [] currentConfig) body)
      match writeFileSync fs configFilePath (J.stringify updatedConfig) with
      | (fs1, some e) => (.error 500 "Failed to update config" (some e), fs1)
      | (fs1, none) =>
        (.json (.updated ("Config for bot \"" ++ name ++ "\" updated successfully.")
            updatedConfig), fs1)

/-- Handler of `DELETE /delete/:name`. -/
def delete (homedir : String) (fs : FS) (name : String) : Response × FS :=
  let botDirectoryPath := pathJoin (blitzBotsDirectory homedir) name
  if !existsSync fs botDirectoryPath (trailingSep name) then
    (.error 404 ("Bot \"" ++ name ++ "\" not found.") none, fs)
  else
    match rmRecursive fs botDirectoryPath with
    | (fs1, some e) => (.error 500 "Failed to delete bot" (some e), fs1)
    | (fs1, none) => (.json (.message ("Bot \"" ++ name ++ "\" deleted successfully.")), fs1)

/-! ## Invariants -/

/-- A path in normal form has no empty, `.` or `..` segment. -/
def clean (p : Path) : Prop :=
  ∀ s ∈ p, s ≠ "" ∧ s ≠ "." ∧ s ≠ ".."

/-- A table that describes a real tree: every path occurs once, and every entry lies in
directories all the way down from the filesystem root. -/
def wellFormed (fs : FS) : Prop :=
  (fs.map Prod.fst).Nodup ∧ ∀ e ∈ fs, ∀ r ∈ e.1.inits, r ≠ e.1 → stat fs r = some .dir

instance (fs : FS) : Decidable (wellFormed fs) := by
  unfold wellFormed
  infer_instance

/-- The workspace root has no entry below it. -/
def emptyRoot (homedir : String) (fs : FS) : Prop :=
  ∀ e ∈ fs, blitzBotsDirectory homedir <+: e.1 → e.1 = blitzBotsDirectory homedir

instance (homedir : String) (fs : FS) : Decidable (emptyRoot homedir fs) := by
  unfold emptyRoot
  infer_instance

/-! ## Sample data -/

/-- Text of `JSON.stringify(v, null, 2)` for an object whose values are strings that need
no escaping; a stand-in for the builtin on the few documents used as examples. -/
def sampleStringify : Json → String
  | .obj [] => "\x7b\x7d"
  | .obj members =>
    "\x7b\n" ++ ",\n".intercalate (members.map (fun kv =>
      "  \"" ++ kv.1 ++ "\": " ++
        (match kv.2 with
         | .str s => "\"" ++ s ++ "\""
         | _ => "null"))) ++ "\n\x7d"
  | .str s => "\"" ++ s ++ "\""
  | _ => "null"

/-- A stand-in for `JSON.parse`: it reads the default configuration of a bot with token
`t`, the empty object and `null`, and reports a syntax error on every other text. -/
def sampleParse (s : String) : Option Json :=
  if s = sampleStringify (configData "t") then some (configData "t")
  else if s = "\x7b\x7d" then some (.obj [])
  else if s = "null" then some .null
  else none

/-- The stand-in JSON functions used by the examples. -/
def sampleCodec : JSONCodec := ⟨sampleParse, sampleStringify⟩

/-- A home directory with one file of the user, after the server has started: the
workspace root exists and is empty. -/
def emptyWorkspace : FS :=
  startup "/home/u"
    [([], .dir), (["home"], .dir), (["home", "u"], .dir),
     (["home", "u", "notes.txt"], .file "keep")]

/-- The workspace after bot `a` was created with token `t`. -/
def oneBot : FS :=
  (create sampleCodec "/home/u" (some (.str "code")) emptyWorkspace "a" "t").fs

/-- The workspace after bots `a` and `b` were created. -/
def twoBots : FS :=
  (create sampleCodec "/home/u" (some (.str "code")) oneBot "b" "t").fs

/-- Bot `a` with a `manifest.json` that is not JSON. -/
def badManifest : FS :=
  (["home", "u", "blitz-bots", "a", "manifest.json"], .file "not json") :: oneBot

/-- The workspace after `create` was called with the name `x/y` and then with `z`. -/
def nestedThenZ : FS :=
  (create sampleCodec "/home/u" (some (.str "code"))
    (create sampleCodec "/home/u" (some (.str "code")) emptyWorkspace "x/y" "t").fs "z" "t").fs

/-- A metadata answer that names a repository. -/
def greeterInfo : Json :=
  .obj [("name", .str "greeter"), ("github_repo", .str "BLITZ-BOTS/greeter")]

/-- Bot `a` after the plugin `greeter` was installed. -/
def withPlugin : FS :=
  (install "/home/u" (some greeterInfo) (some [(["index.js"], .file "hello")]) oneBot "a"
    "greeter").fs

/-! ## Facts about paths -/

theorem clean_nil : clean [] := by
  intro s hs
  cases hs

theorem clean_snoc {p : Path} {s : String} (hp : clean p)
    (hs : s ≠ "" ∧ s ≠ "." ∧ s ≠ "..") : clean (p ++ [s]) := by
  intro t ht
  rcases List.mem_append.1 ht with h | h
  · exact hp t h
  · have : t = s := by simpa using h
    subst this
    exact hs

theorem clean_dropLast {p : Path} (hp : clean p) : clean p.dropLast := by
  intro t ht
  exact hp t (List.dropLast_subset p ht)

theorem normStep_clean {acc : Path} (seg : String) (h : clean acc) :
    clean (normStep acc seg) := by
  unfold normStep
  by_cases h1 : seg = "" ∨ seg = "."
  · simp only [h1, if_true]
    exact h
  · by_cases h2 : seg = ".."
    · simp only [h1, h2, if_false, if_true]
      exact clean_dropLast h
    · simp only [h1, h2, if_false]
      refine clean_snoc h ⟨?_, ?_, h2⟩
      · exact fun h => h1 (Or.inl h)
      · exact fun h => h1 (Or.inr h)

theorem foldl_normStep_clean (segs : List String) :
    ∀ acc : Path, clean acc → clean (segs.foldl normStep acc) := by
  induction segs with
  | nil => intro acc h; exact h
  | cons s rest ih => intro acc h; exact ih _ (normStep_clean s h)

theorem normalize_clean (segs : List String) : clean (normalize segs) :=
  foldl_normStep_clean segs [] clean_nil

theorem normStep_of_ok (acc : Path) {s : String} (hs : s ≠ "" ∧ s ≠ "." ∧ s ≠ "..") :
    normStep acc s = acc ++ [s] := by
  unfold normStep
  simp [hs.1, hs.2.1, hs.2.2]

theorem foldl_normStep_of_clean (p : Path) :
    ∀ acc : Path, clean p → p.foldl normStep acc = acc ++ p := by
  induction p with
  | nil => intro acc _; simp
  | cons s rest ih =>
    intro acc h
    have hs := h s (List.mem_cons_self _ _)
    have hrest : clean rest := fun t ht => h t (List.mem_cons_of_mem _ ht)
    rw [List.foldl_cons, normStep_of_ok acc hs, ih _ hrest]
    simp

theorem normalize_of_clean {p : Path} (h : clean p) : normalize p = p := by
  unfold normalize
  rw [foldl_normStep_of_clean p [] h]
  simp

theorem pathJoin_eq_foldl {base : Path} (hb : clean base) (s : String) :
    pathJoin base s = (segments s).foldl normStep base := by
  unfold pathJoin normalize
  rw [List.foldl_append, foldl_normStep_of_clean base [] hb]
  simp

theorem pathJoin_clean (base : Path) (s : String) : clean (pathJoin base s) :=
  normalize_clean _

theorem blitzBotsDirectory_clean (homedir : String) : clean (blitzBotsDirectory homedir) :=
  normalize_clean _

theorem blitzBotsDirectory_eq (homedir : String) :
    blitzBotsDirectory homedir = normalize (segments homedir) ++ ["blitz-bots"] := by
  unfold blitzBotsDirectory normalize
  rw [List.foldl_append]
  simp only [List.foldl_cons, List.foldl_nil]
  exact normStep_of_ok _ (by decide)

theorem splitSegments_of_no_sep (cs : List Char) (h : '/' ∉ cs) : splitSegments cs = [cs] := by
  induction cs with
  | nil => rfl
  | cons c rest ih =>
    have hc : c ≠ '/' := fun hc => h (by simp [hc])
    have hrest : '/' ∉ rest := fun hr => h (List.mem_cons_of_mem _ hr)
    simp [splitSegments, hc, ih hrest]

theorem segments_of_no_sep (s : String) (h : '/' ∉ s.data) : segments s = [s] := by
  unfold segments
  rw [splitSegments_of_no_sep _ h]
  rfl

/-- Joining one ordinary segment appends it. -/
theorem pathJoin_segment {base : Path} (hb : clean base) {s : String} (h : '/' ∉ s.data)
    (hs : s ≠ "" ∧ s ≠ "." ∧ s ≠ "..") : pathJoin base s = base ++ [s] := by
  rw [pathJoin_eq_foldl hb, segments_of_no_sep s h]
  exact normStep_of_ok base hs

theorem pathJoin_plugins {base : Path} (hb : clean base) :
    pathJoin base "plugins" = base ++ ["plugins"] :=
  pathJoin_segment hb (by decide) (by decide)

theorem pathJoin_botJs {base : Path} (hb : clean base) :
    pathJoin base "bot.js" = base ++ ["bot.js"] :=
  pathJoin_segment hb (by decide) (by decide)

theorem pathJoin_config {base : Path} (hb : clean base) :
    pathJoin base "config.json" = base ++ ["config.json"] :=
  pathJoin_segment hb (by decide) (by decide)

theorem pathJoin_manifest {base : Path} (hb : clean base) :
    pathJoin base "manifest.json" = base ++ ["manifest.json"] :=
  pathJoin_segment hb (by decide) (by decide)

theorem validPath_snoc (p : Path) (s : String) :
    validPath (p ++ [s]) = (validPath p && !s.data.contains '\x00') := by
  simp [validPath]

theorem validPath_of_initial {q p : Path} (h : q <+: p) (hp : validPath p = true) :
    validPath q = true := by
  obtain ⟨t, rfl⟩ := h
  simp only [validPath, List.all_append, Bool.and_eq_true] at hp
  exact hp.1

/-! ## Facts about the filesystem calls -/

theorem stat_cons (q : Path) (e : Entry) (fs : FS) (p : Path) :
    stat ((q, e) :: fs) p = if q = p then some e else stat fs p := rfl

theorem stat_some_mem {fs : FS} {q : Path} {e : Entry} (h : stat fs q = some e) :
    (q, e) ∈ fs := by
  induction fs with
  | nil => simp [stat] at h
  | cons x rest ih =>
    obtain ⟨k, v⟩ := x
    rw [stat_cons] at h
    by_cases hk : k = q
    · simp only [hk, if_true, Option.some.injEq] at h
      simp [hk, h]
    · simp only [hk, if_false] at h
      exact List.mem_cons_of_mem _ (ih h)

theorem mem_stat_isSome {fs : FS} {q : Path} {e : Entry} (h : (q, e) ∈ fs) :
    ∃ e', stat fs q = some e' := by
  induction fs with
  | nil => cases h
  | cons x rest ih =>
    obtain ⟨k, v⟩ := x
    rw [stat_cons]
    by_cases hk : k = q
    · exact ⟨v, by simp [hk]⟩
    · simp only [hk, if_false]
      rcases List.mem_cons.1 h with h | h
      · exact absurd (congrArg Prod.fst h).symm hk
      · exact ih h

theorem stat_none_not_mem {fs : FS} {q : Path} (h : stat fs q = none) (e : Entry) :
    (q, e) ∉ fs := by
  intro hm
  obtain ⟨e', he'⟩ := mem_stat_isSome hm
  rw [h] at he'
  cases he'

theorem mem_stat_of_nodup {fs : FS} (hn : (fs.map Prod.fst).Nodup) {q : Path} {e : Entry}
    (h : (q, e) ∈ fs) : stat fs q = some e := by
  induction fs with
  | nil => cases h
  | cons x rest ih =>
    obtain ⟨k, v⟩ := x
    simp only [List.map_cons, List.nodup_cons] at hn
    rw [stat_cons]
    rcases List.mem_cons.1 h with h | h
    · cases h
      simp
    · have hk : k ≠ q := by
        intro hk
        apply hn.1
        rw [hk]
        exact List.mem_map_of_mem Prod.fst h
      simp only [hk, if_false]
      exact ih hn.2 h

theorem stat_filter (P : Path → Prop) [DecidablePred P] (fs : FS) (q : Path) :
    stat (fs.filter (fun e => decide (P e.1))) q = if P q then stat fs q else none := by
  induction fs with
  | nil => simp [stat]
  | cons x rest ih =>
    obtain ⟨k, v⟩ := x
    by_cases hk : P k
    · by_cases hkq : k = q
      · subst hkq
        simp [List.filter_cons, hk, stat_cons]
      · simp [List.filter_cons, hk, stat_cons, hkq, ih]
    · by_cases hkq : k = q
      · subst hkq
        simp [List.filter_cons, hk, ih]
      · simp [List.filter_cons, hk, stat_cons, hkq, ih]

/-- In a well-formed table nothing lies below a missing path. -/
theorem stat_none_below {fs : FS} (hwf : wellFormed fs) {p q : Path} (hp : stat fs p = none)
    (hpq : p <+: q) : stat fs q = none := by
  cases hq : stat fs q with
  | none => rfl
  | some e =>
    exfalso
    have hm := stat_some_mem hq
    by_cases hne : p = q
    · rw [hne, hq] at hp
      cases hp
    · have := hwf.2 (q, e) hm p ((List.mem_inits p q).2 hpq) hne
      rw [hp] at this
      cases this

/-- In a well-formed table everything above a regular file or directory is a directory. -/
theorem stat_dir_above {fs : FS} (hwf : wellFormed fs) {p q : Path} {e : Entry}
    (hq : stat fs q = some e) (hpq : p <+: q) (hne : p ≠ q) : stat fs p = some .dir :=
  hwf.2 (q, e) (stat_some_mem hq) p ((List.mem_inits p q).2 hpq) hne

theorem mkdirAll_mem (qs : List Path) :
    ∀ (fs : FS) (q : Path) (e : Entry), (q, e) ∈ (mkdirAll fs qs).1 →
      (q, e) ∈ fs ∨ (q ∈ qs ∧ e = .dir) := by
  induction qs with
  | nil => intro fs q e h; exact Or.inl h
  | cons k rest ih =>
    intro fs q e h
    unfold mkdirAll at h
    cases hk : stat fs k with
    | none =>
      simp only [hk] at h
      rcases ih _ q e h with h1 | h1
      · rcases List.mem_cons.1 h1 with h2 | h2
        · cases h2
          exact Or.inr ⟨List.mem_cons_self _ _, rfl⟩
        · exact Or.inl h2
      · exact Or.inr ⟨List.mem_cons_of_mem _ h1.1, h1.2⟩
    | some v =>
      cases v with
      | file c =>
        simp only [hk] at h
        exact Or.inl h
      | dir =>
        simp only [hk] at h
        rcases ih _ q e h with h1 | h1
        · exact Or.inl h1
        · exact Or.inr ⟨List.mem_cons_of_mem _ h1.1, h1.2⟩

theorem mkdirAll_stat_of_some (qs : List Path) :
    ∀ (fs : FS) (q : Path) (e : Entry), stat fs q = some e →
      stat (mkdirAll fs qs).1 q = some e := by
  induction qs with
  | nil => intro fs q e h; exact h
  | cons k rest ih =>
    intro fs q e h
    unfold mkdirAll
    cases hk : stat fs k with
    | none =>
      simp only
      apply ih
      rw [stat_cons]
      have : k ≠ q := by
        intro hkq
        rw [hkq, h] at hk
        cases hk
      simp [this, h]
    | some v =>
      cases v with
      | file c => exact h
      | dir => exact ih _ q e h

theorem mkdirAll_stat_of_not_mem (qs : List Path) :
    ∀ (fs : FS) (q : Path), q ∉ qs → stat (mkdirAll fs qs).1 q = stat fs q := by
  induction qs with
  | nil => intro fs q _; rfl
  | cons k rest ih =>
    intro fs q h
    have hk1 : k ≠ q := fun hkq => h (by simp [hkq])
    have hrest : q ∉ rest := fun hr => h (List.mem_cons_of_mem _ hr)
    unfold mkdirAll
    cases hk : stat fs k with
    | none =>
      simp only
      rw [ih _ q hrest, stat_cons]
      simp [hk1]
    | some v =>
      cases v with
      | file c => rfl
      | dir => exact ih _ q hrest

theorem mkdirAll_stat_mem (qs : List Path) :
    ∀ (fs : FS) (q : Path), (mkdirAll fs qs).2 = none → q ∈ qs →
      stat (mkdirAll fs qs).1 q = some .dir := by
  induction qs with
  | nil => intro fs q _ h; cases h
  | cons k rest ih =>
    intro fs q hok hq
    unfold mkdirAll at hok ⊢
    cases hk : stat fs k with
    | none =>
      simp only [hk] at hok ⊢
      rcases List.mem_cons.1 hq with h | h
      · subst h
        apply mkdirAll_stat_of_some
        simp [stat_cons]
      · exact ih _ q hok h
    | some v =>
      cases v with
      | file c => simp [hk] at hok
      | dir =>
        simp only [hk] at hok ⊢
        rcases List.mem_cons.1 hq with h | h
        · subst h
          exact mkdirAll_stat_of_some _ _ _ _ hk
        · exact ih _ q hok h

/-! ## Facts about object spread -/

theorem getProp_cons (k0 : String) (v0 : Json) (rest : List (String × Json)) (k : String) :
    getProp ((k0, v0) :: rest) k =
      match getProp rest k with
      | some w => some w
      | none => if k0 = k then some v0 else none := rfl

theorem getProp_append_single (o : List (String × Json)) (k : String) (v : Json) (k' : String) :
    getProp (o ++ [(k, v)]) k' = if k = k' then some v else getProp o k' := by
  induction o with
  | nil => simp [getProp]
  | cons x rest ih =>
    obtain ⟨k0, v0⟩ := x
    rw [List.cons_append, getProp_cons, getProp_cons, ih]
    by_cases h : k = k'
    · simp [h]
    · simp [h]

theorem getProp_map_replace (o : List (String × Json)) (k : String) (v : Json) (k' : String) :
    getProp (o.map (fun kv => if kv.1 = k then (k, v) else kv)) k' =
      if k = k' then (if o.any (fun kv => decide (kv.1 = k)) then some v else none)
      else getProp o k' := by
  induction o with
  | nil => simp [getProp]
  | cons x rest ih =>
    obtain ⟨k0, v0⟩ := x
    rw [List.map_cons, List.any_cons, getProp_cons]
    by_cases h0 : k0 = k
    · subst h0
      simp only [if_true, getProp_cons, ih, decide_True, Bool.true_or]
      by_cases h : k0 = k'
      · simp only [h, if_true]
        cases rest.any (fun kv => decide (kv.1 = k')) <;> rfl
      · simp only [h, if_false]
    · simp only [h0, if_false, getProp_cons, ih, decide_False, Bool.false_or]
      by_cases h : k = k'
      · subst h
        simp only [if_true, h0, if_false]
        cases rest.any (fun kv => decide (kv.1 = k)) <;> rfl
      · simp only [h, if_false]

theorem getProp_of_not_any (o : List (String × Json)) (k : String)
    (h : ¬ o.any (fun kv => decide (kv.1 = k)) = true) : getProp o k = none := by
  induction o with
  | nil => rfl
  | cons x rest ih =>
    obtain ⟨k0, v0⟩ := x
    rw [List.any_cons, Bool.or_eq_true, not_or] at h
    have h0 : ¬ k0 = k := by simpa using h.1
    rw [getProp_cons, ih h.2, if_neg h0]

theorem getProp_insertIndexed (o : List (String × Json)) (k : String) (n : Nat) (v : Json)
    (k' : String) (h : ¬ o.any (fun kv => decide (kv.1 = k)) = true) :
    getProp (insertIndexed o k n v) k' = if k = k' then some v else getProp o k' := by
  induction o with
  | nil => simp [insertIndexed, getProp]
  | cons x rest ih =>
    obtain ⟨k0, v0⟩ := x
    have hall := h
    rw [List.any_cons, Bool.or_eq_true, not_or] at h
    have here : getProp ((k, v) :: (k0, v0) :: rest) k' =
        if k = k' then some v else getProp ((k0, v0) :: rest) k' := by
      rw [getProp_cons]
      by_cases hk : k = k'
      · subst hk
        rw [getProp_of_not_any _ _ hall]
      · simp only [hk, if_false]
        cases getProp ((k0, v0) :: rest) k' <;> rfl
    unfold insertIndexed
    cases arrayIndex k0 with
    | none => exact here
    | some m =>
      simp only
      by_cases hm : m < n
      · rw [if_pos hm, getProp_cons, ih h.2, getProp_cons]
        by_cases hk : k = k'
        · simp only [hk, if_true]
        · simp only [hk, if_false]
      · rw [if_neg hm]
        exact here

theorem getProp_setProp (o : List (String × Json)) (k : String) (v : Json) (k' : String) :
    getProp (setProp o k v) k' = if k = k' then some v else getProp o k' := by
  unfold setProp
  by_cases h : o.any (fun kv => decide (kv.1 = k)) = true
  · rw [if_pos h, getProp_map_replace, h]
    rfl
  · rw [if_neg h]
    cases arrayIndex k with
    | none => exact getProp_append_single o k v k'
    | some n => exact getProp_insertIndexed o k n v k' h

theorem getProp_foldl_setProp (src : List (String × Json)) :
    ∀ (acc : List (String × Json)) (k : String),
      getProp (src.foldl (fun acc kv => setProp acc kv.1 kv.2) acc) k =
        match getProp src k with
        | some v => some v
        | none => getProp acc k := by
  induction src with
  | nil => intro acc k; rfl
  | cons x rest ih =>
    intro acc k
    obtain ⟨k0, v0⟩ := x
    rw [List.foldl_cons, ih, getProp_setProp, getProp_cons]
    cases getProp rest k with
    | none =>
      by_cases h : k0 = k
      · simp only [h, if_true]
      · simp only [h, if_false]
    | some w => rfl

/-- Reading a key of `{ ...c, ...p }`: the value in `p` when `p` has the key, else the
value in `c`. -/
theorem getProp_spread (c p : List (String × Json)) (k : String) :
    getProp (spread (spread [] (.obj c)) (.obj p)) k =
      match getProp p k with
      | some v => some v
      | none => getProp c k := by
  unfold spread
  simp only [ownEnumerable]
  rw [getProp_foldl_setProp, getProp_foldl_setProp]
  cases getProp c k <;> rfl

/-! ## Facts about the handlers -/

theorem existsSync_of_stat_none {fs : FS} {p : Path} (h : stat fs p = none) (t : Bool) :
    existsSync fs p t = false := by
  simp [existsSync, h]

theorem existsSync_valid {fs : FS} {p : Path} {t : Bool} (h : existsSync fs p t = true) :
    validPath p = true := by
  simp only [existsSync, Bool.and_eq_true] at h
  exact h.1

theorem existsSync_of_dir {fs : FS} {p : Path} (hv : validPath p = true)
    (h : stat fs p = some .dir) (t : Bool) : existsSync fs p t = true := by
  simp [existsSync, h, hv]

theorem rmRecursive_stat (fs : FS) {p : Path} (hp : p ≠ []) (q : Path) :
    stat (rmRecursive fs p).1 q = if p <+: q then none else stat fs q := by
  unfold rmRecursive
  simp only [hp, if_false]
  rw [stat_filter (fun q => ¬ p <+: q)]
  by_cases h : p <+: q <;> simp [h]

/-- Whatever `delete` does, a path that is not at or below the target keeps its entry. -/
theorem delete_frame (homedir : String) (fs : FS) (name : String) (q : Path)
    (hq : ¬ pathJoin (blitzBotsDirectory homedir) name <+: q) :
    stat (delete homedir fs name).2 q = stat fs q := by
  unfold delete
  by_cases hex : existsSync fs (pathJoin (blitzBotsDirectory homedir) name) (trailingSep name)
      = true
  · have hne : pathJoin (blitzBotsDirectory homedir) name ≠ [] := by
      intro h
      rw [h] at hq
      exact hq (List.nil_prefix)
    have hrm := rmRecursive_stat fs hne q
    simp only [hq, if_false] at hrm
    simp only [hex, Bool.not_true, Bool.false_eq_true, if_false]
    have h2 : (rmRecursive fs (pathJoin (blitzBotsDirectory homedir) name)).2 = none := by
      simp [rmRecursive, hne]
    generalize rmRecursive fs (pathJoin (blitzBotsDirectory homedir) name) = r at hrm h2
    obtain ⟨fs1, err⟩ := r
    simp only at h2 hrm
    subst h2
    exact hrm
  · simp [hex]

/-! ## Creating a bot that exists (C3) -/

/-- The guard of `create` on line 40: an existing path stops the handler at once. -/
theorem create_of_exists (J : JSONCodec) (homedir : String) (template : Option Json)
    (fs : FS) (name token : String) (hname : name ≠ "") (htoken : token ≠ "")
    (hex : existsSync fs (pathJoin (blitzBotsDirectory homedir) name) (trailingSep name)
      = true) :
    create J homedir template fs name token =
      ⟨.error 400 ("A bot with the name \"" ++ name ++ "\" already exists.") none, fs, []⟩ := by
  unfold create
  simp [hname, htoken, hex]

/-- C3: when the bot directory named `name` exists and the token is not empty, `create`
answers with status 400 and the message that a bot with this name already exists, sends
no request to the template source, and returns the filesystem exactly as it was, so that
the configuration, the entrypoint and the plugins of the existing bot are untouched. -/
theorem create_existing_rejected (J : JSONCodec) (homedir : String)
    (template : Option Json) (fs : FS) (name token : String)
    (hname : name ≠ "") (htoken : token ≠ "")
    (hex : existsSync fs (pathJoin (blitzBotsDirectory homedir) name) (trailingSep name)
      = true) :
    create J homedir template fs name token =
      ⟨.error 400 ("A bot with the name \"" ++ name ++ "\" already exists.") none, fs, []⟩ :=
  create_of_exists J homedir template fs name token hname htoken hex

/-- C3 on bot `a` of the sample workspace, with another token and template. -/
theorem create_existing_rejected_witness :
    create sampleCodec "/home/u" (some (.str "other code")) oneBot "a" "t2" =
      ⟨.error 400 "A bot with the name \"a\" already exists." none, oneBot, []⟩ :=
  create_existing_rejected sampleCodec "/home/u" (some (.str "other code")) oneBot "a" "t2"
    (by decide) (by decide) (by decide)

/-! ## Deleting a bot (C8, C10) -/

/-- C8: a bot that exists is deleted with a success answer (its directory not being the
filesystem root); after a successful `delete(name)` both `inspect(name)` and a second
`delete(name)` answer 404 "not found", the second delete changing nothing; and
`delete(name)` for a name whose directory does not exist answers 404 and changes
nothing. -/
theorem delete_then_not_found (J : JSONCodec) (homedir : String) (fs : FS) (name : String) :
    (existsSync fs (pathJoin (blitzBotsDirectory homedir) name) (trailingSep name) = true →
      pathJoin (blitzBotsDirectory homedir) name ≠ [] →
      (delete homedir fs name).1 =
        .json (.message ("Bot \"" ++ name ++ "\" deleted successfully."))) ∧
    ((∃ body, (delete homedir fs name).1 = .json body) →
      inspect J homedir (delete homedir fs name).2 name =
          .error 404 ("Bot \"" ++ name ++ "\" not found.") none ∧
        delete homedir (delete homedir fs name).2 name =
          (.error 404 ("Bot \"" ++ name ++ "\" not found.") none,
            (delete homedir fs name).2)) ∧
    (existsSync fs (pathJoin (blitzBotsDirectory homedir) name) (trailingSep name) = false →
      delete homedir fs name = (.error 404 ("Bot \"" ++ name ++ "\" not found.") none, fs)) := by
  refine ⟨?_, ?_, ?_⟩
  · intro hex hne
    simp [delete, hex, rmRecursive, hne]
  · rintro ⟨body, hbody⟩
    by_cases hex : existsSync fs (pathJoin (blitzBotsDirectory homedir) name)
        (trailingSep name) = true
    · by_cases hne : pathJoin (blitzBotsDirectory homedir) name = []
      · rw [hne] at hex
        simp [delete, hex, rmRecursive, hne] at hbody
      · have hgone : stat (delete homedir fs name).2
            (pathJoin (blitzBotsDirectory homedir) name) = none := by
          have h := rmRecursive_stat fs hne (pathJoin (blitzBotsDirectory homedir) name)
          simp only [List.prefix_refl, if_true] at h
          simpa [delete, hex, rmRecursive, hne] using h
        have hno := existsSync_of_stat_none hgone (trailingSep name)
        generalize (delete homedir fs name).2 = fs' at hno
        constructor
        · simp [inspect, hno]
        · simp [delete, hno]
    · simp [delete, hex] at hbody
  · intro hex
    simp [delete, hex]

/-- C8 on the sample workspace: bot `a` is deleted and then unknown; deleting a missing bot
changes nothing. -/
theorem delete_then_not_found_witness :
    (delete "/home/u" oneBot "a").1 = .json (.message "Bot \"a\" deleted successfully.") ∧
    inspect sampleCodec "/home/u" (delete "/home/u" oneBot "a").2 "a" =
      .error 404 "Bot \"a\" not found." none ∧
    delete "/home/u" emptyWorkspace "a" =
      (.error 404 "Bot \"a\" not found." none, emptyWorkspace) :=
  ⟨(delete_then_not_found sampleCodec "/home/u" oneBot "a").1 (by decide) (by decide),
   ((delete_then_not_found sampleCodec "/home/u" oneBot "a").2.1 ⟨_, rfl⟩).1,
   (delete_then_not_found sampleCodec "/home/u" emptyWorkspace "a").2.2 (by decide)⟩

/-- C10, as the claim states it, fails: `delete("..")` removes the home directory, and with
it bot `b`, whose name is not `..`, and the user's file outside the workspace root. -/
theorem delete_dotdot_removes_others :
    stat twoBots ["home", "u", "blitz-bots", "b", "config.json"] =
        some (.file (sampleStringify (configData "t"))) ∧
      stat (delete "/home/u" twoBots "..").2 ["home", "u", "blitz-bots", "b", "config.json"]
        = none ∧
      stat twoBots ["home", "u", "notes.txt"] = some (.file "keep") ∧
      stat (delete "/home/u" twoBots "..").2 ["home", "u", "notes.txt"] = none := by
  decide

/-- C10, amended: for a name that is one ordinary path segment (not empty, no `/`, not `.`
and not `..`), `delete(name)` leaves every entry of every other directory under the
workspace root, and every entry outside the workspace root, as it was, whether it
succeeds or fails. -/
theorem delete_segment_frame (homedir : String) (fs : FS) (name : String)
    (hsep : '/' ∉ name.data) (hname : name ≠ "" ∧ name ≠ "." ∧ name ≠ "..") :
    (∀ (other : String) (rest : Path), other ≠ name →
      stat (delete homedir fs name).2 (blitzBotsDirectory homedir ++ other :: rest) =
        stat fs (blitzBotsDirectory homedir ++ other :: rest)) ∧
    (∀ q : Path, ¬ blitzBotsDirectory homedir <+: q →
      stat (delete homedir fs name).2 q = stat fs q) := by
  have hp : pathJoin (blitzBotsDirectory homedir) name = blitzBotsDirectory homedir ++ [name] :=
    pathJoin_segment (blitzBotsDirectory_clean homedir) hsep hname
  constructor
  · intro other rest hne
    apply delete_frame
    rw [hp, List.prefix_append_right_inj]
    intro h
    have := (List.cons_prefix_cons.1 h).1
    exact hne this.symm
  · intro q hq
    apply delete_frame
    rw [hp]
    intro h
    exact hq ((List.prefix_append _ _).trans h)

/-- C10, amended, on the sample workspace: deleting bot `a` leaves bot `b` and the user's
file alone. -/
theorem delete_segment_frame_witness :
    stat (delete "/home/u" twoBots "a").2 ["home", "u", "blitz-bots", "b", "config.json"] =
        stat twoBots ["home", "u", "blitz-bots", "b", "config.json"] ∧
      stat (delete "/home/u" twoBots "a").2 ["home", "u", "notes.txt"] =
        stat twoBots ["home", "u", "notes.txt"] :=
  ⟨(delete_segment_frame "/home/u" twoBots "a" (by decide) (by decide)).1 "b"
      ["config.json"] (by decide),
   (delete_segment_frame "/home/u" twoBots "a" (by decide) (by decide)).2
      ["home", "u", "notes.txt"] (by decide)⟩

/-! ## Updating the configuration (C1) -/

theorem validPath_config {p : Path} (h : validPath p = true) :
    validPath (p ++ ["config.json"]) = true := by
  rw [validPath_snoc, h]
  decide

theorem readJson_of_file (J : JSONCodec) {fs : FS} {p : Path} {text : String}
    (hv : validPath p = true) (h : stat fs p = some (.file text)) :
    readJson J fs p =
      match J.parse text with
      | none => .error .syntaxError
      | some v => .ok v := by
  simp [readJson, readFileSync, hv, h]

theorem writeFileSync_of_file {fs : FS} {p : Path} {old : String} (hv : validPath p = true)
    (h : stat fs p = some (.file old)) (content : String) :
    writeFileSync fs p content =
      ((p, .file content) :: fs.filter (fun e => decide (e.1 ≠ p)), none) := by
  simp [writeFileSync, hv, h]

/-- C1: for a bot that exists and whose `config.json` holds the JSON object `c`, and for a
patch object `p`, `update(name, p)` answers with success and the document `m`, the text
written to `config.json` is `JSON.stringify(m)` for the same `m`, nothing else in the
filesystem changes, and `m` is the shallow merge: a key of `p` has the value `p` gives it
(a nested value is taken whole), a key of `c` that `p` lacks keeps the value of `c`, and
`m` has no other key. -/
theorem update_shallow_merge (J : JSONCodec) (homedir : String) (fs : FS) (name : String)
    (c p : List (String × Json)) (text : String)
    (hbot : existsSync fs (pathJoin (blitzBotsDirectory homedir) name) (trailingSep name)
      = true)
    (hcfg : stat fs (pathJoin (pathJoin (blitzBotsDirectory homedir) name) "config.json")
      = some (.file text))
    (hparse : J.parse text = some (.obj c)) :
    ∃ m : List (String × Json),
      (update J homedir fs name (.obj p)).1 =
          .json (.updated ("Config for bot \"" ++ name ++ "\" updated successfully.")
            (.obj m)) ∧
        stat (update J homedir fs name (.obj p)).2
            (pathJoin (pathJoin (blitzBotsDirectory homedir) name) "config.json") =
          some (.file (J.stringify (.obj m))) ∧
        (∀ q : Path,
          q ≠ pathJoin (pathJoin (blitzBotsDirectory homedir) name) "config.json" →
          stat (update J homedir fs name (.obj p)).2 q = stat fs q) ∧
        ∀ k : String, getProp m k =
          match getProp p k with
          | some v => some v
          | none => getProp c k := by
  have hclean := pathJoin_clean (blitzBotsDirectory homedir) name
  have hv : validPath (pathJoin (pathJoin (blitzBotsDirectory homedir) name) "config.json")
      = true := by
    rw [pathJoin_config hclean]
    exact validPath_config (existsSync_valid hbot)
  have hex : existsSync fs
      (pathJoin (pathJoin (blitzBotsDirectory homedir) name) "config.json") false = true := by
    simp [existsSync, hv, hcfg]
  have hread := readJson_of_file J hv hcfg
  rw [hparse] at hread
  have hwrite := writeFileSync_of_file hv hcfg
    (J.stringify (.obj (spread (spread [] (.obj c)) (.obj p))))
  refine ⟨spread (spread [] (.obj c)) (.obj p), ?_, ?_, ?_, getProp_spread c p⟩
  · simp [update, hbot, hex, hread, hwrite]
  · simp [update, hbot, hex, hread, hwrite, stat_cons]
  · intro q hq
    simp only [update, hbot, hex, hread, hwrite, Bool.not_true, Bool.false_eq_true, if_false]
    rw [stat_cons, if_neg (Ne.symm hq), stat_filter (fun r => r ≠ _)]
    simp [hq]

/-- C1 on bot `a` of the sample workspace with the patch that sets `prefix` to `?`. -/
theorem update_shallow_merge_witness :
    ∃ m : List (String × Json),
      (update sampleCodec "/home/u" oneBot "a" (.obj [("prefix", .str "?")])).1 =
          .json (.updated "Config for bot \"a\" updated successfully." (.obj m)) ∧
        stat (update sampleCodec "/home/u" oneBot "a" (.obj [("prefix", .str "?")])).2
            (pathJoin (pathJoin (blitzBotsDirectory "/home/u") "a") "config.json") =
          some (.file (sampleCodec.stringify (.obj m))) ∧
        (∀ q : Path,
          q ≠ pathJoin (pathJoin (blitzBotsDirectory "/home/u") "a") "config.json" →
          stat (update sampleCodec "/home/u" oneBot "a" (.obj [("prefix", .str "?")])).2 q
            = stat oneBot q) ∧
        ∀ k : String, getProp m k =
          match getProp [("prefix", Json.str "?")] k with
          | some v => some v
          | none => getProp [("bot_token", .str "t"), ("prefix", .str "!")] k :=
  update_shallow_merge sampleCodec "/home/u" oneBot "a"
    [("bot_token", .str "t"), ("prefix", .str "!")] [("prefix", .str "?")]
    (sampleStringify (configData "t")) (by decide) (by decide) (by rfl)

/-! ## Inspecting a bot (C6) -/

theorem validPath_manifest {p : Path} (h : validPath p = true) :
    validPath (p ++ ["manifest.json"]) = true := by
  rw [validPath_snoc, h]
  decide

theorem validPath_plugins {p : Path} (h : validPath p = true) :
    validPath (p ++ ["plugins"]) = true := by
  rw [validPath_snoc, h]
  decide

theorem validPath_botJs {p : Path} (h : validPath p = true) :
    validPath (p ++ ["bot.js"]) = true := by
  rw [validPath_snoc, h]
  decide

theorem readJson_of_missing (J : JSONCodec) {fs : FS} {p : Path} (h : stat fs p = none) :
    ∃ e, readJson J fs p = .error e := by
  by_cases hv : validPath p = true
  · exact ⟨.ENOENT, by simp [readJson, readFileSync, hv, h]⟩
  · exact ⟨.invalidArg, by simp [readJson, readFileSync, hv]⟩

/-- The answer of `inspect` once the configuration cannot be read. -/
theorem inspect_of_config_error (J : JSONCodec) (homedir : String) (fs : FS) (name : String)
    (hbot : existsSync fs (pathJoin (blitzBotsDirectory homedir) name) (trailingSep name)
      = true)
    (e : JsError)
    (hcfg : readJson J fs (pathJoin (pathJoin (blitzBotsDirectory homedir) name) "config.json")
      = .error e) :
    ∃ e', inspect J homedir fs name =
      .error 500 "Failed to retrieve bot information" (some e') := by
  unfold inspect
  simp only [hbot, Bool.not_true, Bool.false_eq_true, if_false, hcfg]
  split
  · exact ⟨_, rfl⟩
  · split
    · exact ⟨_, rfl⟩
    · exact ⟨_, rfl⟩

/-- C6, as the claim states it, fails: bot `a` has a valid `config.json` and a
`manifest.json` that does not parse, and `inspect` answers with an error instead of a view
with a null manifest. -/
theorem inspect_bad_manifest_fails :
    readJson sampleCodec badManifest ["home", "u", "blitz-bots", "a", "config.json"] =
        .ok (configData "t") ∧
      sampleCodec.parse "not json" = none ∧
      inspect sampleCodec "/home/u" badManifest "a" =
        .error 500 "Failed to retrieve bot information" (some .syntaxError) := by
  refine ⟨by rfl, by rfl, by rfl⟩

/-- C6, amended: for a bot that exists, (1) when `manifest.json` is absent, `config.json`
holds valid JSON and the `plugins` entry is absent or a directory, `inspect` succeeds with
a null manifest; (2) when `manifest.json` is a file that does not parse, `inspect` answers
with a 500 error, however good `config.json` is; (3) when `config.json` is absent or does
not parse, `inspect` answers with a 500 error and no view. -/
theorem inspect_manifest_config_asymmetry (J : JSONCodec) (homedir : String) (fs : FS)
    (name : String)
    (hbot : existsSync fs (pathJoin (blitzBotsDirectory homedir) name) (trailingSep name)
      = true) :
    (∀ (text : String) (config : Json),
      stat fs (pathJoin (pathJoin (blitzBotsDirectory homedir) name) "manifest.json") = none →
      (stat fs (pathJoin (pathJoin (blitzBotsDirectory homedir) name) "plugins") = none ∨
        stat fs (pathJoin (pathJoin (blitzBotsDirectory homedir) name) "plugins")
          = some .dir) →
      stat fs (pathJoin (pathJoin (blitzBotsDirectory homedir) name) "config.json")
        = some (.file text) →
      J.parse text = some config →
      ∃ plugins, inspect J homedir fs name =
        .json (.botInfo name (pathJoin (blitzBotsDirectory homedir) name) .null plugins
          config)) ∧
    (∀ text : String,
      stat fs (pathJoin (pathJoin (blitzBotsDirectory homedir) name) "manifest.json")
        = some (.file text) →
      J.parse text = none →
      inspect J homedir fs name =
        .error 500 "Failed to retrieve bot information" (some .syntaxError)) ∧
    ((stat fs (pathJoin (pathJoin (blitzBotsDirectory homedir) name) "config.json") = none ∨
        ∃ text, stat fs (pathJoin (pathJoin (blitzBotsDirectory homedir) name) "config.json")
          = some (.file text) ∧ J.parse text = none) →
      ∃ e, inspect J homedir fs name =
        .error 500 "Failed to retrieve bot information" (some e)) := by
  have hclean := pathJoin_clean (blitzBotsDirectory homedir) name
  have hvalid := existsSync_valid hbot
  refine ⟨?_, ?_, ?_⟩
  · intro text config hman hplug hcfg hparse
    have hvc : validPath (pathJoin (pathJoin (blitzBotsDirectory homedir) name) "config.json")
        = true := by
      rw [pathJoin_config hclean]
      exact validPath_config hvalid
    have hvp : validPath (pathJoin (pathJoin (blitzBotsDirectory homedir) name) "plugins")
        = true := by
      rw [pathJoin_plugins hclean]
      exact validPath_plugins hvalid
    have hread := readJson_of_file J hvc hcfg
    rw [hparse] at hread
    have hnoman := existsSync_of_stat_none hman false
    unfold inspect
    simp only [hbot, hnoman, hread, Bool.not_true, Bool.false_eq_true, if_false]
    rcases hplug with hp | hp
    · rw [existsSync_of_stat_none hp false]
      exact ⟨[], rfl⟩
    · rw [existsSync_of_dir hvp hp false]
      simp only [if_true, readdirDirectories, hvp, hp]
      exact ⟨_, rfl⟩
  · intro text hman hparse
    have hvm : validPath (pathJoin (pathJoin (blitzBotsDirectory homedir) name)
        "manifest.json") = true := by
      rw [pathJoin_manifest hclean]
      exact validPath_manifest hvalid
    have hread := readJson_of_file J hvm hman
    rw [hparse] at hread
    have hex : existsSync fs
        (pathJoin (pathJoin (blitzBotsDirectory homedir) name) "manifest.json") false
        = true := by
      simp [existsSync, hvm, hman]
    simp [inspect, hbot, hex, hread]
  · intro h
    rcases h with h | ⟨text, hfile, hparse⟩
    · obtain ⟨e, he⟩ := readJson_of_missing J h
      exact inspect_of_config_error J homedir fs name hbot e he
    · apply inspect_of_config_error J homedir fs name hbot .syntaxError
      have hvc : validPath
          (pathJoin (pathJoin (blitzBotsDirectory homedir) name) "config.json") = true := by
        rw [pathJoin_config hclean]
        exact validPath_config hvalid
      have hread := readJson_of_file J hvc hfile
      rw [hparse] at hread
      exact hread

/-- C6, amended, on the sample workspace, without a manifest and with a malformed one. -/
theorem inspect_manifest_config_asymmetry_witness :
    (∃ plugins, inspect sampleCodec "/home/u" oneBot "a" =
        .json (.botInfo "a" (pathJoin (blitzBotsDirectory "/home/u") "a") .null plugins
          (configData "t"))) ∧
      inspect sampleCodec "/home/u" badManifest "a" =
        .error 500 "Failed to retrieve bot information" (some .syntaxError) :=
  ⟨(inspect_manifest_config_asymmetry sampleCodec "/home/u" oneBot "a" (by decide)).1
      (sampleStringify (configData "t")) (configData "t") (by decide) (by decide)
      (by decide) (by rfl),
   (inspect_manifest_config_asymmetry sampleCodec "/home/u" badManifest "a"
      (by decide)).2.1 "not json" (by decide) (by rfl)⟩

/-! ## Installing a plugin (C4, C5) -/

theorem mkdirSync_inv {fs fs1 : FS} {p : Path} (h : mkdirSync fs p = (fs1, none)) :
    validPath p = true ∧ stat fs p = none ∧ stat fs p.dropLast = some .dir ∧
      fs1 = (p, .dir) :: fs := by
  unfold mkdirSync at h
  by_cases hv : validPath p = true
  · simp only [hv, if_true] at h
    cases hp : stat fs p with
    | some e => simp [hp] at h
    | none =>
      simp only [hp] at h
      cases hd : stat fs p.dropLast with
      | none => simp [hd] at h
      | some e =>
        cases e with
        | file c => simp [hd] at h
        | dir =>
          simp only [hd, Prod.mk.injEq, and_true] at h
          exact ⟨hv, rfl, rfl, h.symm⟩
  · simp [hv] at h

theorem mkdirSync_of_fresh {fs : FS} {p : Path} (hv : validPath p = true)
    (hp : stat fs p = none) (hd : stat fs p.dropLast = some .dir) :
    mkdirSync fs p = ((p, .dir) :: fs, none) := by
  simp [mkdirSync, hv, hp, hd]

theorem stat_append (a b : FS) (q : Path) :
    stat (a ++ b) q =
      match stat a q with
      | some e => some e
      | none => stat b q := by
  induction a with
  | nil => rfl
  | cons x rest ih =>
    obtain ⟨k, v⟩ := x
    rw [List.cons_append, stat_cons, stat_cons]
    by_cases hk : k = q
    · simp [hk]
    · simp [hk, ih]

theorem gitClone_inv {fs fs2 : FS} {dest : Path} {tree : Option (List (Path × Entry))}
    (h : gitClone fs dest tree = (fs2, none)) :
    ∃ (entries : List (Path × Entry)) (fs1 : FS), validPath dest = true ∧
      stat fs dest = none ∧ mkdirAll fs dest.inits = (fs1, none) ∧
      fs2 = fs1 ++ entries.map (fun e => (dest ++ e.1, e.2)) := by
  unfold gitClone at h
  cases tree with
  | none => simp at h
  | some entries =>
    simp only at h
    by_cases hv : validPath dest = true
    · simp only [hv, if_true] at h
      cases h1 : stat fs dest with
      | some e => simp [h1] at h
      | none =>
        cases h2 : mkdirAll fs dest.inits with
        | mk fs1 err =>
          cases err with
          | some e => simp [h1, h2] at h
          | none =>
            simp only [h1, h2, Prod.mk.injEq, and_true] at h
            exact ⟨entries, fs1, hv, rfl, rfl, h.symm⟩
    · simp [hv] at h

theorem existsSync_mkdirAll_of_exists {fs : FS} {p : Path} {t : Bool}
    (h : existsSync fs p t = true) (qs : List Path) :
    existsSync (mkdirAll fs qs).1 p t = true := by
  unfold existsSync at h ⊢
  cases hs : stat fs p with
  | none => simp [hs] at h
  | some e =>
    rw [mkdirAll_stat_of_some qs fs p e hs]
    simpa [hs] using h

/-- The step "create the plugins folder when it is missing" of `install`, for a bot whose
directory is a directory. -/
theorem ensure_plugins_folder {fs : FS} {bot : Path} (hclean : clean bot)
    (hv : validPath bot = true) (hdir : stat fs bot = some .dir) :
    (if (!existsSync fs (pathJoin bot "plugins") false) = true then
        mkdirSync fs (pathJoin bot "plugins")
      else (fs, none)) =
      (if existsSync fs (pathJoin bot "plugins") false = true then fs
        else (pathJoin bot "plugins", .dir) :: fs, none) := by
  by_cases hex : existsSync fs (pathJoin bot "plugins") false = true
  · simp [hex]
  · have hex' : existsSync fs (pathJoin bot "plugins") false = false := by
      simpa using hex
    have hvp : validPath (pathJoin bot "plugins") = true := by
      rw [pathJoin_plugins hclean]
      exact validPath_plugins hv
    have hnone : stat fs (pathJoin bot "plugins") = none := by
      cases hs : stat fs (pathJoin bot "plugins") with
      | none => rfl
      | some e => cases e <;> simp [existsSync, hvp, hs] at hex'
    have hparent : stat fs (pathJoin bot "plugins").dropLast = some .dir := by
      rw [pathJoin_plugins hclean, List.dropLast_concat]
      exact hdir
    simp [hex', mkdirSync_of_fresh hvp hnone hparent]

/-- C5, as the claim states it, fails: the metadata service answers with a status that is
not a success, and `install` answers 500 "Failed to add plugin", not 404. -/
theorem install_lookup_failure_is_500 :
    install "/home/u" none none oneBot "a" "ghost" =
      ⟨.error 500 "Failed to add plugin" (some .requestFailed), oneBot,
        [.pluginInfo "ghost"]⟩ := by
  rfl

/-- C5, amended: for a bot whose directory exists, when the metadata service answers with
success but with an empty body or an entry without `github_repo`, `install` answers 404
"Plugin not found"; when the request to the service fails or its status is not a
success, `install` answers 500 "Failed to add plugin"; in both cases the only request sent
is the metadata lookup (no clone), and the filesystem is unchanged but for the bot's
`plugins` folder, which is created when it was missing. -/
theorem install_unresolved (homedir : String) (pluginInfo : Option Json)
    (repoTree : Option (List (Path × Entry))) (fs : FS) (app_name plugin_name : String)
    (hbot : existsSync fs (pathJoin (blitzBotsDirectory homedir) app_name)
      (trailingSep app_name) = true)
    (hdir : stat fs (pathJoin (blitzBotsDirectory homedir) app_name) = some .dir)
    (hun : pluginInfo = none ∨ ∃ data, pluginInfo = some data ∧
      (truthy (some data) = false ∨ truthy (member data "github_repo") = false)) :
    (install homedir pluginInfo repoTree fs app_name plugin_name).response =
        (match pluginInfo with
         | none => .error 500 "Failed to add plugin" (some .requestFailed)
         | some _ => .error 404 ("Plugin \"" ++ plugin_name ++ "\" not found.") none) ∧
      (install homedir pluginInfo repoTree fs app_name plugin_name).calls =
        [.pluginInfo plugin_name] ∧
      (install homedir pluginInfo repoTree fs app_name plugin_name).fs =
        (if existsSync fs
            (pathJoin (pathJoin (blitzBotsDirectory homedir) app_name) "plugins") false
            = true then fs
         else (pathJoin (pathJoin (blitzBotsDirectory homedir) app_name) "plugins", .dir)
           :: fs) := by
  have hclean := pathJoin_clean (blitzBotsDirectory homedir) app_name
  have hens := ensure_plugins_folder hclean (existsSync_valid hbot) hdir
  unfold install
  simp only [hbot, Bool.not_true, Bool.false_eq_true, if_false, hens]
  rcases hun with h | ⟨data, h, hd⟩
  · subst h
    simp
  · subst h
    have : (!truthy (some data) || !truthy (member data "github_repo")) = true := by
      rcases hd with hd | hd <;> simp [hd]
    simp [this]

/-- C5, amended, for a metadata entry that has no `github_repo`. -/
theorem install_unresolved_witness :
    (install "/home/u" (some (.obj [("name", .str "ghost")])) none oneBot "a" "ghost").response
        = .error 404 "Plugin \"ghost\" not found." none ∧
      (install "/home/u" (some (.obj [("name", .str "ghost")])) none oneBot "a" "ghost").calls
        = [.pluginInfo "ghost"] ∧
      (install "/home/u" (some (.obj [("name", .str "ghost")])) none oneBot "a" "ghost").fs
        = oneBot :=
  install_unresolved "/home/u" (some (.obj [("name", .str "ghost")])) none oneBot "a" "ghost"
    (by decide) (by decide) (Or.inr ⟨_, rfl, Or.inr (by rfl)⟩)

theorem existsSync_cons_of_exists {fs : FS} {p : Path} {t : Bool}
    (h : existsSync fs p t = true) {k : Path} (hk : stat fs k = none) (e : Entry) :
    existsSync ((k, e) :: fs) p t = true := by
  have hne : k ≠ p := by
    intro hkp
    rw [hkp] at hk
    simp [existsSync, hk] at h
  simpa [existsSync, stat_cons, hne] using h

theorem existsSync_append_of_exists {fs : FS} {p : Path} {t : Bool}
    (h : existsSync fs p t = true) (more : FS) : existsSync (fs ++ more) p t = true := by
  unfold existsSync at h ⊢
  rw [stat_append]
  cases hs : stat fs p with
  | none => simp [hs] at h
  | some e => simpa [hs] using h

/-- What a successful `install` went through: the bot existed, the plugin directory did
not, and the clone put a directory there. -/
theorem install_success_inv (homedir : String) (pluginInfo : Option Json)
    (repoTree : Option (List (Path × Entry))) (fs : FS) (app_name plugin_name : String)
    (body : Payload)
    (h : (install homedir pluginInfo repoTree fs app_name plugin_name).response = .json body) :
    existsSync (install homedir pluginInfo repoTree fs app_name plugin_name).fs
        (pathJoin (blitzBotsDirectory homedir) app_name) (trailingSep app_name) = true ∧
      existsSync (install homedir pluginInfo repoTree fs app_name plugin_name).fs
        (pathJoin (pathJoin (blitzBotsDirectory homedir) app_name) "plugins") false = true ∧
      existsSync (install homedir pluginInfo repoTree fs app_name plugin_name).fs
        (pathJoin (pathJoin (pathJoin (blitzBotsDirectory homedir) app_name) "plugins")
          plugin_name) (trailingSep plugin_name) = true := by
  unfold install at h ⊢
  by_cases hbot : existsSync fs (pathJoin (blitzBotsDirectory homedir) app_name)
      (trailingSep app_name) = true
  swap
  · simp [hbot] at h
  simp only [hbot, Bool.not_true, Bool.false_eq_true, if_false] at h ⊢
  -- the plugins folder after the "create when missing" step
  have hstep : ∃ fs1 err,
      (if (!existsSync fs (pathJoin (pathJoin (blitzBotsDirectory homedir) app_name)
          "plugins") false) = true then
        mkdirSync fs (pathJoin (pathJoin (blitzBotsDirectory homedir) app_name) "plugins")
       else (fs, none)) = (fs1, err) ∧
      (err = none →
        existsSync fs1 (pathJoin (blitzBotsDirectory homedir) app_name)
            (trailingSep app_name) = true ∧
          existsSync fs1 (pathJoin (pathJoin (blitzBotsDirectory homedir) app_name)
            "plugins") false = true) := by
    by_cases hpf : existsSync fs (pathJoin (pathJoin (blitzBotsDirectory homedir) app_name)
        "plugins") false = true
    · exact ⟨fs, none, by simp [hpf], fun _ => ⟨hbot, hpf⟩⟩
    · cases hmk : mkdirSync fs (pathJoin (pathJoin (blitzBotsDirectory homedir) app_name)
          "plugins") with
      | mk fs1 err =>
        refine ⟨fs1, err, by simp [hpf], ?_⟩
        intro herr
        subst herr
        obtain ⟨hv, hnone, _, hfs1⟩ := mkdirSync_inv hmk
        rw [hfs1]
        exact ⟨existsSync_cons_of_exists hbot hnone _, by simp [existsSync, hv, stat_cons]⟩
  obtain ⟨fs1, err, hens, hfacts⟩ := hstep
  rw [hens] at h ⊢
  cases err with
  | some e => simp at h
  | none =>
    obtain ⟨hbot1, hpf1⟩ := hfacts rfl
    cases pluginInfo with
    | none => simp at h
    | some data =>
      simp only at h ⊢
      by_cases hres : (!truthy (some data) || !truthy (member data "github_repo")) = true
      · simp [hres] at h
      · simp only [hres, if_false] at h ⊢
        by_cases hpd : existsSync fs1 (pathJoin (pathJoin (pathJoin
            (blitzBotsDirectory homedir) app_name) "plugins") plugin_name)
            (trailingSep plugin_name) = true
        · simp [hpd] at h
        · simp only [hpd, if_false] at h ⊢
          cases hclone : gitClone fs1 (pathJoin (pathJoin (pathJoin
              (blitzBotsDirectory homedir) app_name) "plugins") plugin_name) repoTree with
          | mk fs2 err2 =>
            cases err2 with
            | some e => simp [hclone] at h
            | none =>
              obtain ⟨entries, fs1', hv, hnone, hmk, hfs2⟩ := gitClone_inv hclone
              have hdest : stat fs1' (pathJoin (pathJoin (pathJoin
                  (blitzBotsDirectory homedir) app_name) "plugins") plugin_name)
                  = some .dir := by
                have := mkdirAll_stat_mem _ fs1 _ (by rw [hmk])
                  ((List.mem_inits _ _).2 (List.prefix_refl (pathJoin (pathJoin (pathJoin
                    (blitzBotsDirectory homedir) app_name) "plugins") plugin_name)))
                rw [hmk] at this
                exact this
              have hbot2 := existsSync_mkdirAll_of_exists hbot1 (pathJoin (pathJoin (pathJoin
                (blitzBotsDirectory homedir) app_name) "plugins") plugin_name).inits
              have hpf2 := existsSync_mkdirAll_of_exists hpf1 (pathJoin (pathJoin (pathJoin
                (blitzBotsDirectory homedir) app_name) "plugins") plugin_name).inits
              rw [hmk] at hbot2 hpf2
              simp only
              rw [hfs2]
              exact ⟨existsSync_append_of_exists hbot2 _,
                existsSync_append_of_exists hpf2 _,
                existsSync_append_of_exists (existsSync_of_dir hv hdest _) _⟩

/-- C4, as the claim states it, fails: the plugin directory of `greeter` exists in bot
`a`, and `install` answers 500 when the metadata service is unreachable and 404 when the
service has dropped the entry, since the lookup comes before the directory check. -/
theorem install_existing_needs_lookup :
    existsSync withPlugin ["home", "u", "blitz-bots", "a", "plugins", "greeter"] false = true ∧
      (install "/home/u" none none withPlugin "a" "greeter").response =
        .error 500 "Failed to add plugin" (some .requestFailed) ∧
      (install "/home/u" (some (.obj [])) none withPlugin "a" "greeter").response =
        .error 404 "Plugin \"greeter\" not found." none := by
  refine ⟨by decide, by rfl, by rfl⟩

/-- C4, amended: for a bot that exists, with its plugins folder, and a plugin name whose
directory exists there, `install` sends no clone request and returns the filesystem
exactly as it was, whatever the metadata service answers; it answers 400 "already
exists" when the service resolves the name (an entry with `github_repo`), 404 when the
service answers without such an entry and 500 when the request fails; hence after a
successful install, a second install of the same plugin, resolved again, answers 400
and changes nothing. -/
theorem install_existing_plugin (homedir : String) (app_name plugin_name : String) :
    (∀ (fs : FS) (pluginInfo : Option Json) (repoTree : Option (List (Path × Entry))),
      existsSync fs (pathJoin (blitzBotsDirectory homedir) app_name) (trailingSep app_name)
        = true →
      existsSync fs (pathJoin (pathJoin (blitzBotsDirectory homedir) app_name) "plugins")
        false = true →
      existsSync fs (pathJoin (pathJoin (pathJoin (blitzBotsDirectory homedir) app_name)
        "plugins") plugin_name) (trailingSep plugin_name) = true →
      (install homedir pluginInfo repoTree fs app_name plugin_name).fs = fs ∧
        (install homedir pluginInfo repoTree fs app_name plugin_name).calls =
          [.pluginInfo plugin_name] ∧
        (install homedir pluginInfo repoTree fs app_name plugin_name).response =
          (match pluginInfo with
           | none => .error 500 "Failed to add plugin" (some .requestFailed)
           | some data =>
             if truthy (some data) = true ∧ truthy (member data "github_repo") = true then
               .error 400 ("Plugin \"" ++ plugin_name ++ "\" already exists in the bot \""
                 ++ app_name ++ "\".") none
             else .error 404 ("Plugin \"" ++ plugin_name ++ "\" not found.") none)) ∧
    (∀ (fs : FS) (info1 : Option Json) (tree1 tree2 : Option (List (Path × Entry)))
        (data : Json),
      (∃ body, (install homedir info1 tree1 fs app_name plugin_name).response = .json body) →
      truthy (some data) = true → truthy (member data "github_repo") = true →
      install homedir (some data) tree2
          (install homedir info1 tree1 fs app_name plugin_name).fs app_name plugin_name =
        ⟨.error 400 ("Plugin \"" ++ plugin_name ++ "\" already exists in the bot \""
            ++ app_name ++ "\".") none,
          (install homedir info1 tree1 fs app_name plugin_name).fs,
          [.pluginInfo plugin_name]⟩) := by
  have key : ∀ (fs : FS) (pluginInfo : Option Json)
      (repoTree : Option (List (Path × Entry))),
      existsSync fs (pathJoin (blitzBotsDirectory homedir) app_name) (trailingSep app_name)
        = true →
      existsSync fs (pathJoin (pathJoin (blitzBotsDirectory homedir) app_name) "plugins")
        false = true →
      existsSync fs (pathJoin (pathJoin (pathJoin (blitzBotsDirectory homedir) app_name)
        "plugins") plugin_name) (trailingSep plugin_name) = true →
      (install homedir pluginInfo repoTree fs app_name plugin_name).fs = fs ∧
        (install homedir pluginInfo repoTree fs app_name plugin_name).calls =
          [.pluginInfo plugin_name] ∧
        (install homedir pluginInfo repoTree fs app_name plugin_name).response =
          (match pluginInfo with
           | none => .error 500 "Failed to add plugin" (some .requestFailed)
           | some data =>
             if truthy (some data) = true ∧ truthy (member data "github_repo") = true then
               .error 400 ("Plugin \"" ++ plugin_name ++ "\" already exists in the bot \""
                 ++ app_name ++ "\".") none
             else .error 404 ("Plugin \"" ++ plugin_name ++ "\" not found.") none) := by
    intro fs pluginInfo repoTree hbot hpf hpd
    unfold install
    simp only [hbot, hpf, hpd, Bool.not_true, Bool.false_eq_true, if_false, if_true]
    cases pluginInfo with
    | none => simp
    | some data =>
      cases h1 : truthy (some data) <;> cases h2 : truthy (member data "github_repo") <;>
        simp [h1, h2]
  refine ⟨key, ?_⟩
  rintro fs info1 tree1 tree2 data ⟨body, hbody⟩ h1 h2
  obtain ⟨hbot, hpf, hpd⟩ :=
    install_success_inv homedir info1 tree1 fs app_name plugin_name body hbody
  obtain ⟨hfs, hcalls, hresp⟩ :=
    key (install homedir info1 tree1 fs app_name plugin_name).fs (some data) tree2 hbot hpf hpd
  have hr := hresp
  simp only [h1, h2, and_self, if_true] at hr
  generalize install homedir (some data) tree2
    (install homedir info1 tree1 fs app_name plugin_name).fs app_name plugin_name = r at *
  cases r
  simp only at hfs hcalls hr
  rw [hfs, hcalls, hr]

/-- C4, amended, for the plugin `greeter` of bot `a`. -/
theorem install_existing_plugin_witness :
    (install "/home/u" (some greeterInfo) (some [(["index.js"], .file "changed")]) withPlugin
        "a" "greeter").fs = withPlugin ∧
      install "/home/u" (some greeterInfo) (some [(["index.js"], .file "changed")])
          (install "/home/u" (some greeterInfo) (some [(["index.js"], .file "hello")]) oneBot
            "a" "greeter").fs "a" "greeter" =
        ⟨.error 400 "Plugin \"greeter\" already exists in the bot \"a\"." none,
          (install "/home/u" (some greeterInfo) (some [(["index.js"], .file "hello")]) oneBot
            "a" "greeter").fs,
          [.pluginInfo "greeter"]⟩ :=
  ⟨((install_existing_plugin "/home/u" "a" "greeter").1 withPlugin (some greeterInfo)
      (some [(["index.js"], .file "changed")]) (by decide) (by decide) (by decide)).1,
   (install_existing_plugin "/home/u" "a" "greeter").2 oneBot (some greeterInfo)
      (some [(["index.js"], .file "hello")]) (some [(["index.js"], .file "changed")])
      greeterInfo ⟨_, rfl⟩ (by rfl) (by rfl)⟩

/-! ## Creating a bot (C2, C9) -/

theorem isPrefix_snoc_ne (p : Path) (s : String) : p ++ [s] ≠ p := by
  intro h
  have := congrArg List.length h
  simp at this

theorem snoc_not_initial (p : Path) (s : String) : ¬ (p ++ [s]) <+: p := by
  intro h
  have := h.length_le
  simp at this

theorem mkdirSyncRecursive_inv {fs fs1 : FS} {p : Path}
    (h : mkdirSyncRecursive fs p = (fs1, none)) :
    validPath p = true ∧ fs1 = (mkdirAll fs p.inits).1 ∧ (mkdirAll fs p.inits).2 = none := by
  unfold mkdirSyncRecursive at h
  by_cases hv : validPath p = true
  · simp only [hv, if_true] at h
    rw [h]
    exact ⟨hv, rfl, rfl⟩
  · simp [hv] at h

/-- The directory made by `mkdir -p`, seen from inside: the target is a directory and
nothing appeared below it. -/
theorem mkdirSyncRecursive_spec {fs fs1 : FS} {p : Path}
    (h : mkdirSyncRecursive fs p = (fs1, none)) :
    stat fs1 p = some .dir ∧
      (∀ q, ¬ q <+: p → stat fs1 q = stat fs q) ∧
      (∀ q e, stat fs q = some e → stat fs1 q = some e) ∧
      (∀ q e, (q, e) ∈ fs1 → (q, e) ∈ fs ∨ (q <+: p ∧ e = .dir)) := by
  obtain ⟨_, hfs1, hok⟩ := mkdirSyncRecursive_inv h
  subst hfs1
  refine ⟨?_, ?_, ?_, ?_⟩
  · exact mkdirAll_stat_mem _ _ _ hok ((List.mem_inits _ _).2 (List.prefix_refl p))
  · intro q hq
    exact mkdirAll_stat_of_not_mem _ _ _ (fun hm => hq ((List.mem_inits _ _).1 hm))
  · intro q e hq
    exact mkdirAll_stat_of_some _ _ _ _ hq
  · intro q e hm
    rcases mkdirAll_mem _ _ _ _ hm with h1 | h1
    · exact Or.inl h1
    · exact Or.inr ⟨(List.mem_inits _ _).1 h1.1, h1.2⟩

theorem writeFileSync_of_fresh {fs : FS} {p : Path} (hv : validPath p = true)
    (hp : stat fs p = none) (hd : stat fs p.dropLast = some .dir) (content : String) :
    writeFileSync fs p content = ((p, .file content) :: fs, none) := by
  simp [writeFileSync, hv, hp, hd]

/-- The course of `create` on a free name once `mkdir -p` has gone through: the plugins
folder is made, the template source is asked, and on an answer that is text the two
files are written. -/
theorem create_fresh (J : JSONCodec) (homedir : String) (template : Option Json)
    (fs fs1 : FS) (name token : String) (hname : name ≠ "") (htoken : token ≠ "")
    (hex : existsSync fs (pathJoin (blitzBotsDirectory homedir) name) (trailingSep name)
      = false)
    (hmk : mkdirSyncRecursive fs (pathJoin (blitzBotsDirectory homedir) name) = (fs1, none))
    (hbelow : ∀ q, pathJoin (blitzBotsDirectory homedir) name <+: q →
      q ≠ pathJoin (blitzBotsDirectory homedir) name → stat fs q = none) :
    create J homedir template fs name token =
      match template with
      | none =>
        ⟨.error 500 "Failed to create bot folder" (some .requestFailed),
          (pathJoin (blitzBotsDirectory homedir) name ++ ["plugins"], .dir) :: fs1,
          [.templateFetch]⟩
      | some (.str botJsCode) =>
        ⟨.json (.created ("Bot folder for \"" ++ name ++ "\" created successfully.")
            (pathJoin (blitzBotsDirectory homedir) name)),
          (pathJoin (blitzBotsDirectory homedir) name ++ ["config.json"],
              .file (J.stringify (configData token))) ::
            (pathJoin (blitzBotsDirectory homedir) name ++ ["bot.js"], .file botJsCode) ::
            (pathJoin (blitzBotsDirectory homedir) name ++ ["plugins"], .dir) :: fs1,
          [.templateFetch]⟩
      | some _ =>
        ⟨.error 500 "Failed to create bot folder" (some .invalidArgType),
          (pathJoin (blitzBotsDirectory homedir) name ++ ["plugins"], .dir) :: fs1,
          [.templateFetch]⟩ := by
  have hclean := pathJoin_clean (blitzBotsDirectory homedir) name
  obtain ⟨hv, _, _⟩ := mkdirSyncRecursive_inv hmk
  obtain ⟨hdir, hframe, _, _⟩ := mkdirSyncRecursive_spec hmk
  have hn : ¬ (name = "" ∨ token = "") := by simp [hname, htoken]
  unfold create
  simp only [hn, if_false, hex, Bool.false_eq_true, hmk, pathJoin_plugins hclean,
    pathJoin_botJs hclean, pathJoin_config hclean]
  generalize pathJoin (blitzBotsDirectory homedir) name = p at *
  have hchild : ∀ s : String, stat fs1 (p ++ [s]) = none := by
    intro s
    rw [hframe _ (snoc_not_initial p s)]
    exact hbelow _ (List.prefix_append p [s]) (isPrefix_snoc_ne p s)
  have h1 : mkdirSync fs1 (p ++ ["plugins"]) = ((p ++ ["plugins"], .dir) :: fs1, none) :=
    mkdirSync_of_fresh (validPath_plugins hv) (hchild _)
      (by rw [List.dropLast_concat]; exact hdir)
  have h2 : ∀ code, writeFileSync ((p ++ ["plugins"], .dir) :: fs1) (p ++ ["bot.js"]) code =
      ((p ++ ["bot.js"], .file code) :: (p ++ ["plugins"], .dir) :: fs1, none) := by
    intro code
    apply writeFileSync_of_fresh (validPath_botJs hv)
    · simp [stat_cons, hchild]
    · rw [List.dropLast_concat]
      simp [stat_cons, isPrefix_snoc_ne, hdir]
  have h3 : ∀ code text, writeFileSync ((p ++ ["bot.js"], .file code) ::
        (p ++ ["plugins"], .dir) :: fs1) (p ++ ["config.json"]) text =
      ((p ++ ["config.json"], .file text) :: (p ++ ["bot.js"], .file code) ::
        (p ++ ["plugins"], .dir) :: fs1, none) := by
    intro code text
    apply writeFileSync_of_fresh (validPath_config hv)
    · simp [stat_cons, hchild]
    · rw [List.dropLast_concat]
      simp [stat_cons, isPrefix_snoc_ne, hdir]
  simp only [h1]
  cases template with
  | none => rfl
  | some data => cases data <;> simp only [writeFileSyncValue, h2, h3]

/-- When `create` has sent its request to the template source, `mkdir -p` had gone
through. -/
theorem create_fetch_inv (J : JSONCodec) (homedir : String) (template : Option Json)
    (fs : FS) (name token : String)
    (hcalls : (create J homedir template fs name token).calls = [.templateFetch]) :
    ∃ fs1, mkdirSyncRecursive fs (pathJoin (blitzBotsDirectory homedir) name) = (fs1, none) := by
  unfold create at hcalls
  by_cases hn : name = "" ∨ token = ""
  · simp [hn] at hcalls
  · simp only [hn, if_false] at hcalls
    by_cases hex : existsSync fs (pathJoin (blitzBotsDirectory homedir) name)
        (trailingSep name) = true
    · simp [hex] at hcalls
    · simp only [hex, if_false] at hcalls
      cases hmk : mkdirSyncRecursive fs (pathJoin (blitzBotsDirectory homedir) name) with
      | mk fs1 err =>
        cases err with
        | some e => simp [hmk] at hcalls
        | none => exact ⟨fs1, rfl⟩

/-- A free name in a well-formed tree, on which `mkdir -p` goes through, has no entry
at or below its directory. -/
theorem free_name_below {fs fs1 : FS} {p : Path} {t : Bool} (hwf : wellFormed fs)
    (hex : existsSync fs p t = false) (hmk : mkdirSyncRecursive fs p = (fs1, none)) :
    ∀ q, p <+: q → stat fs q = none := by
  obtain ⟨hv, _, _⟩ := mkdirSyncRecursive_inv hmk
  obtain ⟨hdir, _, hkeep, _⟩ := mkdirSyncRecursive_spec hmk
  have hnone : stat fs p = none := by
    cases hs : stat fs p with
    | none => rfl
    | some e =>
      cases e with
      | file c =>
        rw [hkeep p _ hs] at hdir
        cases hdir
      | dir => simp [existsSync, hv, hs] at hex
  intro q hq
  exact stat_none_below hwf hnone hq

theorem childName_eq_some {p q : Path} {n : String} :
    childName p q = some n ↔ q = p ++ [n] := by
  unfold childName
  constructor
  · intro h
    cases hl : q.getLast? with
    | none => simp [hl] at h
    | some m =>
      simp only [hl] at h
      by_cases hd : q.dropLast = p
      · simp only [hd, if_true, Option.some.injEq] at h
        have := List.dropLast_append_getLast? (l := q) m (by simp [hl])
        rw [hd, h] at this
        exact this.symm
      · simp [hd] at h
  · intro h
    subst h
    simp

/-- Membership in the answer of `readdirDirectories`. -/
theorem mem_readdirDirectories {fs : FS} {p : Path} {ds : List String}
    (h : readdirDirectories fs p = .ok ds) (n : String) :
    n ∈ ds ↔ (p ++ [n], Entry.dir) ∈ fs := by
  unfold readdirDirectories at h
  by_cases hv : validPath p = true
  swap
  · simp [hv] at h
  simp only [hv, if_true] at h
  cases hs : stat fs p with
  | none => simp [hs] at h
  | some e =>
    cases e with
    | file c => simp [hs] at h
    | dir =>
      simp only [hs, Except.ok.injEq] at h
      subst h
      rw [List.mem_filterMap]
      constructor
      · rintro ⟨⟨q, e⟩, hm, hf⟩
        cases e with
        | file c => simp at hf
        | dir =>
          simp only at hf
          rw [childName_eq_some.1 hf] at hm
          exact hm
      · intro hm
        exact ⟨(p ++ [n], .dir), hm, by simp [childName_eq_some]⟩

theorem readdirDirectories_of_dir {fs : FS} {p : Path} (hv : validPath p = true)
    (h : stat fs p = some .dir) : ∃ ds, readdirDirectories fs p = .ok ds := by
  simp [readdirDirectories, hv, h]

theorem readdirDirectories_nil {fs : FS} {p : Path} (hv : validPath p = true)
    (h : stat fs p = some .dir) (hnone : ∀ n, (p ++ [n], Entry.dir) ∉ fs) :
    readdirDirectories fs p = .ok [] := by
  obtain ⟨ds, hds⟩ := readdirDirectories_of_dir hv h
  rw [hds]
  cases ds with
  | nil => rfl
  | cons n rest =>
    exact absurd ((mem_readdirDirectories hds n).1 (List.mem_cons_self _ _)) (hnone n)

theorem mkdirAll_ok_of_no_file (qs : List Path) :
    ∀ fs : FS, (∀ q ∈ qs, ∀ c, stat fs q ≠ some (.file c)) → (mkdirAll fs qs).2 = none := by
  induction qs with
  | nil => intro fs _; rfl
  | cons k rest ih =>
    intro fs h
    unfold mkdirAll
    cases hk : stat fs k with
    | none =>
      simp only
      apply ih
      intro q hq c hs
      rw [stat_cons] at hs
      by_cases hkq : k = q
      · simp [hkq] at hs
      · simp only [hkq, if_false] at hs
        exact h q (List.mem_cons_of_mem _ hq) c hs
    | some e =>
      cases e with
      | file c => exact absurd hk (h k (List.mem_cons_self _ _) c)
      | dir => exact ih fs (fun q hq => h q (List.mem_cons_of_mem _ hq))

/-- The call `mkdir -p` goes through when the path holds no NUL character and every part
of it is missing or a directory. -/
theorem mkdirSyncRecursive_of_path_free {fs : FS} {p : Path} (hv : validPath p = true)
    (hpath : ∀ q ∈ p.inits, stat fs q = none ∨ stat fs q = some .dir) :
    mkdirSyncRecursive fs p = ((mkdirAll fs p.inits).1, none) := by
  have hok := mkdirAll_ok_of_no_file p.inits fs (fun q hq c hc => by
    rcases hpath q hq with h | h <;> rw [h] at hc <;> cases hc)
  unfold mkdirSyncRecursive
  rw [if_pos hv]
  exact Prod.ext rfl hok

/-- On a free name `create` gets as far as the template source when `mkdir -p` can make
the directory: the path holds no NUL character and runs through no regular file. -/
theorem create_reaches_fetch (J : JSONCodec) (homedir : String) (template : Option Json)
    (fs : FS) (name token : String) (hname : name ≠ "") (htoken : token ≠ "")
    (hwf : wellFormed fs)
    (hfree : existsSync fs (pathJoin (blitzBotsDirectory homedir) name) (trailingSep name)
      = false)
    (hv : validPath (pathJoin (blitzBotsDirectory homedir) name) = true)
    (hpath : ∀ q ∈ (pathJoin (blitzBotsDirectory homedir) name).inits,
      stat fs q = none ∨ stat fs q = some .dir) :
    (create J homedir template fs name token).calls = [.templateFetch] := by
  have hmk := mkdirSyncRecursive_of_path_free hv hpath
  have hnone := free_name_below hwf hfree hmk
  rw [create_fresh J homedir template fs _ name token hname htoken hfree hmk
    (fun q hq _ => hnone q hq)]
  cases template with
  | none => rfl
  | some data => cases data <;> rfl

/-- C2, as the claim states it, fails.  In the workspace with bot `a`, no bot named
`a/bot.js/y` exists, and `create` answers 500 for this name without asking the template
source, because `bot.js` is a regular file.  And when the template source answers with
a body that is valid JSON, the request has succeeded and `create` answers 500, because
the value it was handed is not text. -/
theorem create_fails_despite_template :
    existsSync oneBot (pathJoin (blitzBotsDirectory "/home/u") "a/bot.js/y")
        (trailingSep "a/bot.js/y") = false ∧
      create sampleCodec "/home/u" (some (.str "code")) oneBot "a/bot.js/y" "t" =
        ⟨.error 500 "Failed to create bot folder" (some .ENOTDIR), oneBot, []⟩ ∧
      existsSync emptyWorkspace (pathJoin (blitzBotsDirectory "/home/u") "a")
        (trailingSep "a") = false ∧
      (create sampleCodec "/home/u" (some (.obj [("a", .num 1)])) emptyWorkspace "a"
          "t").response =
        .error 500 "Failed to create bot folder" (some .invalidArgType) := by
  refine ⟨by decide, by rfl, by decide, by rfl⟩

/-- C2, amended: for a name and a token that are not empty and a name whose directory
does not exist, whose path holds no NUL character and runs through no regular file, when
the template source answers with text, `create` asks the template source and answers
with success, and `inspect` of the same name then succeeds with the configuration
`{ bot_token: token, prefix: "!" }`, no plugin and a null manifest.  The tree is
well-formed, and the runtime reads back the configuration text it wrote. -/
theorem create_then_inspect (J : JSONCodec) (homedir : String) (botJsCode : String)
    (fs : FS) (name token : String) (hname : name ≠ "") (htoken : token ≠ "")
    (hwf : wellFormed fs)
    (hfree : existsSync fs (pathJoin (blitzBotsDirectory homedir) name) (trailingSep name)
      = false)
    (hvalid : validPath (pathJoin (blitzBotsDirectory homedir) name) = true)
    (hpath : ∀ q ∈ (pathJoin (blitzBotsDirectory homedir) name).inits,
      stat fs q = none ∨ stat fs q = some .dir)
    (hround : J.parse (J.stringify (.obj [("bot_token", .str token), ("prefix", .str "!")]))
      = some (.obj [("bot_token", .str token), ("prefix", .str "!")])) :
    (create J homedir (some (.str botJsCode)) fs name token).response =
        .json (.created ("Bot folder for \"" ++ name ++ "\" created successfully.")
          (pathJoin (blitzBotsDirectory homedir) name)) ∧
      (create J homedir (some (.str botJsCode)) fs name token).calls = [.templateFetch] ∧
      inspect J homedir (create J homedir (some (.str botJsCode)) fs name token).fs name =
        .json (.botInfo name (pathJoin (blitzBotsDirectory homedir) name) .null []
          (.obj [("bot_token", .str token), ("prefix", .str "!")])) := by
  have hround' : J.parse (J.stringify (configData token)) = some (configData token) := hround
  have hmk := mkdirSyncRecursive_of_path_free hvalid hpath
  have hnone := free_name_below hwf hfree hmk
  have hcreate := create_fresh J homedir (some (.str botJsCode)) fs _ name token hname htoken
    hfree hmk (fun q hq _ => hnone q hq)
  simp only at hcreate
  rw [hcreate]
  refine ⟨rfl, rfl, ?_⟩
  have hclean := pathJoin_clean (blitzBotsDirectory homedir) name
  obtain ⟨hv, _, _⟩ := mkdirSyncRecursive_inv hmk
  obtain ⟨hdir, hframe, _, hmem⟩ := mkdirSyncRecursive_spec hmk
  unfold inspect
  simp only [pathJoin_plugins hclean, pathJoin_manifest hclean, pathJoin_config hclean]
  generalize (mkdirAll fs (pathJoin (blitzBotsDirectory homedir) name).inits).1 = fs1 at *
  generalize pathJoin (blitzBotsDirectory homedir) name = p at *
  have hchild : ∀ s : String, stat fs1 (p ++ [s]) = none := by
    intro s
    rw [hframe _ (snoc_not_initial p s)]
    exact hnone _ (List.prefix_append p [s])
  have hbot : existsSync ((p ++ ["config.json"], .file (J.stringify (configData token))) ::
      (p ++ ["bot.js"], .file botJsCode) :: (p ++ ["plugins"], .dir) :: fs1) p
      (trailingSep name) = true := by
    simp [existsSync, hv, stat_cons, isPrefix_snoc_ne, hdir]
  have hman : existsSync ((p ++ ["config.json"], .file (J.stringify (configData token))) ::
      (p ++ ["bot.js"], .file botJsCode) :: (p ++ ["plugins"], .dir) :: fs1)
      (p ++ ["manifest.json"]) false = false := by
    apply existsSync_of_stat_none
    simp [stat_cons, hchild]
  have hpl : existsSync ((p ++ ["config.json"], .file (J.stringify (configData token))) ::
      (p ++ ["bot.js"], .file botJsCode) :: (p ++ ["plugins"], .dir) :: fs1)
      (p ++ ["plugins"]) false = true := by
    apply existsSync_of_dir (validPath_plugins hv)
    simp [stat_cons]
  have hls : readdirDirectories ((p ++ ["config.json"],
      .file (J.stringify (configData token))) ::
      (p ++ ["bot.js"], .file botJsCode) :: (p ++ ["plugins"], .dir) :: fs1)
      (p ++ ["plugins"]) = .ok [] := by
    apply readdirDirectories_nil (validPath_plugins hv) (by simp [stat_cons])
    intro n hm
    simp only [List.mem_cons, Prod.mk.injEq, List.append_assoc, List.append_cancel_left_eq,
      List.cons_append, List.nil_append, List.cons.injEq, reduceCtorEq, and_false,
      false_or] at hm
    rcases hm with hm | hm
    · exact hm.1
    · rcases hmem _ _ hm with h1 | h1
      · have := hnone (p ++ ["plugins", n]) (List.prefix_append p _)
        exact stat_none_not_mem this _ h1
      · have := h1.1.length_le
        simp at this
  have hcfg : readJson J ((p ++ ["config.json"], .file (J.stringify (configData token))) ::
      (p ++ ["bot.js"], .file botJsCode) :: (p ++ ["plugins"], .dir) :: fs1)
      (p ++ ["config.json"]) = .ok (configData token) := by
    rw [readJson_of_file J (validPath_config hv) (by simp [stat_cons] : stat _ _ = some
      (.file (J.stringify (configData token)))), hround']
  simp only [hbot, hman, hpl, hls, hcfg, Bool.not_true, Bool.false_eq_true, if_false, if_true]
  rfl

/-- C2, amended, for bot `a` created in the empty sample workspace. -/
theorem create_then_inspect_witness :
    (create sampleCodec "/home/u" (some (.str "code")) emptyWorkspace "a" "t").response =
        .json (.created "Bot folder for \"a\" created successfully."
          (pathJoin (blitzBotsDirectory "/home/u") "a")) ∧
      (create sampleCodec "/home/u" (some (.str "code")) emptyWorkspace "a" "t").calls =
        [.templateFetch] ∧
      inspect sampleCodec "/home/u"
          (create sampleCodec "/home/u" (some (.str "code")) emptyWorkspace "a" "t").fs "a" =
        .json (.botInfo "a" (pathJoin (blitzBotsDirectory "/home/u") "a") .null []
          (.obj [("bot_token", .str "t"), ("prefix", .str "!")])) :=
  create_then_inspect sampleCodec "/home/u" "code" emptyWorkspace "a" "t" (by decide)
    (by decide) (by decide) (by decide) (by decide) (by decide) (by rfl)

/-- C9: `create` is not transactional.  For a name and a token that are not empty and a
name whose directory does not exist, when `create` asks the template source and the
request fails, `create` answers with a 500 error; the bot directory and its `plugins`
folder are on disk, with nothing else in the bot directory (no `bot.js`, no
`config.json`, nothing inside `plugins`); and every later `create` of the same name,
whatever the token and the template source, answers 400 "already exists" and changes
nothing, so that the name stays blocked as long as the directory is there. -/
theorem create_fetch_failure_leaves_scaffold (J : JSONCodec) (homedir : String) (fs : FS)
    (name token : String) (hname : name ≠ "") (htoken : token ≠ "")
    (hwf : wellFormed fs)
    (hfree : existsSync fs (pathJoin (blitzBotsDirectory homedir) name) (trailingSep name)
      = false)
    (hfetch : (create J homedir none fs name token).calls = [.templateFetch]) :
    (create J homedir none fs name token).response =
        .error 500 "Failed to create bot folder" (some .requestFailed) ∧
      stat (create J homedir none fs name token).fs
        (pathJoin (blitzBotsDirectory homedir) name) = some .dir ∧
      stat (create J homedir none fs name token).fs
        (pathJoin (pathJoin (blitzBotsDirectory homedir) name) "plugins") = some .dir ∧
      stat (create J homedir none fs name token).fs
        (pathJoin (pathJoin (blitzBotsDirectory homedir) name) "bot.js") = none ∧
      stat (create J homedir none fs name token).fs
        (pathJoin (pathJoin (blitzBotsDirectory homedir) name) "config.json") = none ∧
      (∀ q : Path, pathJoin (blitzBotsDirectory homedir) name <+: q →
        q ≠ pathJoin (blitzBotsDirectory homedir) name →
        q ≠ pathJoin (pathJoin (blitzBotsDirectory homedir) name) "plugins" →
        stat (create J homedir none fs name token).fs q = none) ∧
      (∀ (template' : Option Json) (token' : String), token' ≠ "" →
        create J homedir template' (create J homedir none fs name token).fs name token' =
          ⟨.error 400 ("A bot with the name \"" ++ name ++ "\" already exists.") none,
            (create J homedir none fs name token).fs, []⟩) := by
  obtain ⟨fs1, hmk⟩ := create_fetch_inv J homedir _ fs name token hfetch
  have hnone := free_name_below hwf hfree hmk
  have hcreate := create_fresh J homedir none fs fs1 name token hname htoken hfree
    hmk (fun q hq _ => hnone q hq)
  simp only at hcreate
  rw [hcreate]
  have hclean := pathJoin_clean (blitzBotsDirectory homedir) name
  obtain ⟨hv, _, _⟩ := mkdirSyncRecursive_inv hmk
  obtain ⟨hdir, hframe, _, _⟩ := mkdirSyncRecursive_spec hmk
  simp only [pathJoin_plugins hclean, pathJoin_botJs hclean, pathJoin_config hclean]
  have hbelow : ∀ q : Path, pathJoin (blitzBotsDirectory homedir) name <+: q →
      q ≠ pathJoin (blitzBotsDirectory homedir) name →
      q ≠ pathJoin (blitzBotsDirectory homedir) name ++ ["plugins"] →
      stat ((pathJoin (blitzBotsDirectory homedir) name ++ ["plugins"], Entry.dir) :: fs1) q
        = none := by
    intro q hq hne hnp
    rw [stat_cons, if_neg (Ne.symm hnp), hframe q (fun h => hne (h.eq_of_length_le hq.length_le))]
    exact hnone q hq
  have hp : stat ((pathJoin (blitzBotsDirectory homedir) name ++ ["plugins"], Entry.dir)
      :: fs1) (pathJoin (blitzBotsDirectory homedir) name) = some .dir := by
    rw [stat_cons, if_neg (isPrefix_snoc_ne _ _)]
    exact hdir
  refine ⟨trivial, hp, by simp [stat_cons], ?_, ?_, hbelow, ?_⟩
  · apply hbelow _ (List.prefix_append _ _) (isPrefix_snoc_ne _ _)
    simp
  · apply hbelow _ (List.prefix_append _ _) (isPrefix_snoc_ne _ _)
    simp
  · intro template' token' htoken'
    exact create_of_exists J homedir template' _ name token' hname htoken'
      (existsSync_of_dir hv hp _)

/-- C9 for bot `a` in the empty sample workspace when the template source is down. -/
theorem create_fetch_failure_leaves_scaffold_witness :
    (create sampleCodec "/home/u" none emptyWorkspace "a" "t").response =
        .error 500 "Failed to create bot folder" (some .requestFailed) ∧
      stat (create sampleCodec "/home/u" none emptyWorkspace "a" "t").fs
        ["home", "u", "blitz-bots", "a", "plugins"] = some .dir ∧
      create sampleCodec "/home/u" (some (.str "code"))
          (create sampleCodec "/home/u" none emptyWorkspace "a" "t").fs "a" "t" =
        ⟨.error 400 "A bot with the name \"a\" already exists." none,
          (create sampleCodec "/home/u" none emptyWorkspace "a" "t").fs, []⟩ :=
  ⟨(create_fetch_failure_leaves_scaffold sampleCodec "/home/u" emptyWorkspace "a" "t"
      (by decide) (by decide) (by decide) (by decide) (by rfl)).1,
   (create_fetch_failure_leaves_scaffold sampleCodec "/home/u" emptyWorkspace "a" "t"
      (by decide) (by decide) (by decide) (by decide) (by rfl)).2.2.1,
   (create_fetch_failure_leaves_scaffold sampleCodec "/home/u" emptyWorkspace "a" "t"
      (by decide) (by decide) (by decide) (by decide) (by rfl)).2.2.2.2.2.2
      (some (.str "code")) "t" (by decide)⟩

/-! ## Listing the bots (C7) -/

/-- What a successful `create` went through. -/
theorem create_success_inv (J : JSONCodec) (homedir : String) (template : Option Json)
    (fs : FS) (name token : String) (body : Payload)
    (h : (create J homedir template fs name token).response = .json body) :
    name ≠ "" ∧ token ≠ "" ∧
      existsSync fs (pathJoin (blitzBotsDirectory homedir) name) (trailingSep name) = false ∧
      (∃ fs1, mkdirSyncRecursive fs (pathJoin (blitzBotsDirectory homedir) name)
        = (fs1, none)) ∧
      ∃ code, template = some (.str code) := by
  unfold create at h
  by_cases hn : name = "" ∨ token = ""
  · simp [hn] at h
  · simp only [hn, if_false] at h
    have hn' : name ≠ "" ∧ token ≠ "" := by
      constructor
      · exact fun h => hn (Or.inl h)
      · exact fun h => hn (Or.inr h)
    by_cases hex : existsSync fs (pathJoin (blitzBotsDirectory homedir) name)
        (trailingSep name) = true
    · simp [hex] at h
    · simp only [hex, if_false] at h
      refine ⟨hn'.1, hn'.2, by simpa using hex, ?_, ?_⟩
      · cases hmk : mkdirSyncRecursive fs (pathJoin (blitzBotsDirectory homedir) name) with
        | mk fs1 err =>
          cases err with
          | some e => simp [hmk] at h
          | none => exact ⟨fs1, rfl⟩
      · cases hmk : mkdirSyncRecursive fs (pathJoin (blitzBotsDirectory homedir) name) with
        | mk fs1 err =>
          cases err with
          | some e => simp [hmk] at h
          | none =>
            cases hpl : mkdirSync fs1
                (pathJoin (pathJoin (blitzBotsDirectory homedir) name) "plugins") with
            | mk fs2 err2 =>
              cases err2 with
              | some e => simp [hmk, hpl] at h
              | none =>
                cases template with
                | none => simp [hmk, hpl] at h
                | some data =>
                  cases data with
                  | str code => exact ⟨code, rfl⟩
                  | null => simp [hmk, hpl, writeFileSyncValue] at h
                  | bool b => simp [hmk, hpl, writeFileSyncValue] at h
                  | num n => simp [hmk, hpl, writeFileSyncValue] at h
                  | arr items => simp [hmk, hpl, writeFileSyncValue] at h
                  | obj members => simp [hmk, hpl, writeFileSyncValue] at h

/-- A free name without separator names a directory right under the workspace root. -/
theorem pathJoin_of_free_segment (homedir : String) (fs : FS) (name : String)
    (hsep : '/' ∉ name.data) (hname : name ≠ "")
    (hv : validPath (blitzBotsDirectory homedir) = true)
    (hroot : stat fs (blitzBotsDirectory homedir) = some .dir)
    (hparent : stat fs (blitzBotsDirectory homedir).dropLast = some .dir)
    (hfree : existsSync fs (pathJoin (blitzBotsDirectory homedir) name) (trailingSep name)
      = false) :
    pathJoin (blitzBotsDirectory homedir) name = blitzBotsDirectory homedir ++ [name] := by
  have hclean := blitzBotsDirectory_clean homedir
  by_cases h1 : name = "."
  · exfalso
    subst h1
    have hp : pathJoin (blitzBotsDirectory homedir) "." = blitzBotsDirectory homedir := by
      rw [pathJoin_eq_foldl hclean, segments_of_no_sep _ hsep]
      simp [normStep]
    rw [hp, existsSync_of_dir hv hroot] at hfree
    cases hfree
  · by_cases h2 : name = ".."
    · exfalso
      subst h2
      have hp : pathJoin (blitzBotsDirectory homedir) ".." =
          (blitzBotsDirectory homedir).dropLast := by
        rw [pathJoin_eq_foldl hclean, segments_of_no_sep _ hsep]
        simp [normStep]
      rw [hp, existsSync_of_dir (validPath_of_initial (List.dropLast_prefix _) hv) hparent]
        at hfree
      cases hfree
    · exact pathJoin_segment hclean hsep ⟨hname, h1, h2⟩

/-- The tree after a successful `create` of a name without separator, in a workspace
root that exists and has nothing at or below the new directory. -/
theorem create_segment_success (J : JSONCodec) (homedir : String)
    (template : Option Json) (fs : FS) (name token : String) (body : Payload)
    (hsep : '/' ∉ name.data)
    (hv : validPath (blitzBotsDirectory homedir) = true)
    (hroot : stat fs (blitzBotsDirectory homedir) = some .dir)
    (hparent : stat fs (blitzBotsDirectory homedir).dropLast = some .dir)
    (hbelow : ∀ q, blitzBotsDirectory homedir ++ [name] <+: q →
      q ≠ blitzBotsDirectory homedir ++ [name] → stat fs q = none)
    (hok : (create J homedir template fs name token).response = .json body) :
    stat (create J homedir template fs name token).fs (blitzBotsDirectory homedir ++ [name])
        = some .dir ∧
      (∀ q e, stat fs q = some e →
        stat (create J homedir template fs name token).fs q = some e) ∧
      (∀ q e, (q, e) ∈ (create J homedir template fs name token).fs →
        (q, e) ∈ fs ∨ blitzBotsDirectory homedir ++ [name] <+: q ∨
          q <+: blitzBotsDirectory homedir ++ [name]) ∧
      (∀ q, ¬ blitzBotsDirectory homedir ++ [name] <+: q →
        ¬ q <+: blitzBotsDirectory homedir ++ [name] →
        stat (create J homedir template fs name token).fs q = stat fs q) := by
  obtain ⟨hname, htoken, hfree, ⟨fs1, hmk⟩, ⟨code, hcode⟩⟩ :=
    create_success_inv J homedir template fs name token body hok
  subst hcode
  have hp := pathJoin_of_free_segment homedir fs name hsep hname hv hroot hparent hfree
  have hcreate := create_fresh J homedir (some (.str code)) fs fs1 name token hname htoken
    hfree hmk (by rw [hp]; exact hbelow)
  simp only at hcreate
  rw [hcreate]
  obtain ⟨hdir, hframe, hkeep, hmem⟩ := mkdirSyncRecursive_spec hmk
  rw [hp] at hdir hframe hmem ⊢
  generalize blitzBotsDirectory homedir ++ [name] = p at *
  have hkey : ∀ (s : String) (q : Path) (e : Entry), stat fs q = some e → p ++ [s] ≠ q := by
    intro s q e hq h
    subst h
    rw [hbelow _ (List.prefix_append p [s]) (isPrefix_snoc_ne p s)] at hq
    cases hq
  refine ⟨?_, ?_, ?_, ?_⟩
  · simp [stat_cons, isPrefix_snoc_ne, hdir]
  · intro q e hq
    rw [stat_cons, if_neg (hkey _ q e hq), stat_cons, if_neg (hkey _ q e hq), stat_cons,
      if_neg (hkey _ q e hq)]
    exact hkeep q e hq
  · intro q e hm
    simp only [List.mem_cons] at hm
    rcases hm with hm | hm | hm | hm
    · cases hm
      exact Or.inr (Or.inl (List.prefix_append _ _))
    · cases hm
      exact Or.inr (Or.inl (List.prefix_append _ _))
    · cases hm
      exact Or.inr (Or.inl (List.prefix_append _ _))
    · rcases hmem q e hm with h1 | h1
      · exact Or.inl h1
      · exact Or.inr (Or.inr h1.1)
  · intro q h1 h2
    have hne : ∀ s : String, p ++ [s] ≠ q := by
      intro s h
      subst h
      exact h1 (List.prefix_append _ _)
    rw [stat_cons, if_neg (hne _), stat_cons, if_neg (hne _), stat_cons, if_neg (hne _)]
    exact hframe q h2

theorem singleton_initial_iff {x y : String} {l : List String} :
    [x] <+: y :: l ↔ x = y := by
  rw [List.cons_prefix_cons]
  simp

theorem child_initial_child {root : Path} {x y : String} :
    root ++ [x] <+: root ++ [y] ↔ x = y := by
  rw [List.prefix_append_right_inj]
  exact singleton_initial_iff

theorem stat_none_of_emptyRoot {homedir : String} {fs : FS} (h : emptyRoot homedir fs) :
    ∀ q, blitzBotsDirectory homedir <+: q → q ≠ blitzBotsDirectory homedir →
      stat fs q = none := by
  intro q hq hne
  cases hs : stat fs q with
  | none => rfl
  | some e => exact absurd (h (q, e) (stat_some_mem hs) hq) hne

/-- C7, as the claim states it, fails: from an empty workspace root `create` succeeds for
the names `x/y` and `z`, and `list` then returns `x` and `z`: `x/y` is not listed and
`x`, which was never created as a bot, is. -/
theorem list_misses_nested_name :
    (create sampleCodec "/home/u" (some (.str "code")) emptyWorkspace "x/y" "t").response =
        .json (.created "Bot folder for \"x/y\" created successfully."
          ["home", "u", "blitz-bots", "x", "y"]) ∧
      (create sampleCodec "/home/u" (some (.str "code"))
          (create sampleCodec "/home/u" (some (.str "code")) emptyWorkspace "x/y" "t").fs
          "z" "t").response =
        .json (.created "Bot folder for \"z\" created successfully."
          ["home", "u", "blitz-bots", "z"]) ∧
      ∃ ds, list "/home/u" nestedThenZ = .json (.directories ds) ∧
        "x/y" ∉ ds ∧ "x" ∈ ds ∧ "z" ∈ ds := by
  refine ⟨by rfl, by rfl, ["z", "x"], by rfl, by decide, by decide, by decide⟩

/-- C7, amended: (1) for two distinct names without `/`, from a well-formed tree whose
workspace root is an empty directory, once `create` has succeeded for the first and then
for the second (either may come first), `list` returns exactly these two names; (2)
`list` on an empty workspace root returns no name; (3) whenever the workspace root is a
directory, `list` returns exactly the names of the directories directly under it. -/
theorem list_after_creates (J : JSONCodec) (homedir : String) :
    (∀ (fs : FS) (a b tokenA tokenB : String) (templateA templateB : Option Json),
      wellFormed fs →
      validPath (blitzBotsDirectory homedir) = true →
      stat fs (blitzBotsDirectory homedir) = some .dir →
      emptyRoot homedir fs →
      a ≠ b → '/' ∉ a.data → '/' ∉ b.data →
      (∃ body, (create J homedir templateA fs a tokenA).response = .json body) →
      (∃ body, (create J homedir templateB (create J homedir templateA fs a tokenA).fs b
        tokenB).response = .json body) →
      ∃ ds, list homedir (create J homedir templateB
            (create J homedir templateA fs a tokenA).fs b tokenB).fs
          = .json (.directories ds) ∧
        ∀ n, n ∈ ds ↔ n = a ∨ n = b) ∧
    (∀ fs : FS,
      validPath (blitzBotsDirectory homedir) = true →
      stat fs (blitzBotsDirectory homedir) = some .dir →
      emptyRoot homedir fs →
      list homedir fs = .json (.directories [])) ∧
    (∀ fs : FS,
      wellFormed fs →
      validPath (blitzBotsDirectory homedir) = true →
      stat fs (blitzBotsDirectory homedir) = some .dir →
      ∃ ds, list homedir fs = .json (.directories ds) ∧
        ∀ n, n ∈ ds ↔ stat fs (blitzBotsDirectory homedir ++ [n]) = some .dir) := by
  refine ⟨?_, ?_, ?_⟩
  · rintro fs a b tokenA tokenB templateA templateB hwf hv hroot hempty' hab hsepA hsepB
      ⟨bodyA, hokA⟩ ⟨bodyB, hokB⟩
    have hempty := stat_none_of_emptyRoot hempty'
    have hparent : stat fs (blitzBotsDirectory homedir).dropLast = some .dir := by
      apply stat_dir_above hwf hroot (List.dropLast_prefix _)
      rw [blitzBotsDirectory_eq, List.dropLast_concat]
      exact (isPrefix_snoc_ne _ _).symm
    have hchild : ∀ n : String, stat fs (blitzBotsDirectory homedir ++ [n]) = none :=
      fun n => hempty _ (List.prefix_append _ _) (isPrefix_snoc_ne _ _)
    have hbelowA : ∀ q, blitzBotsDirectory homedir ++ [a] <+: q →
        q ≠ blitzBotsDirectory homedir ++ [a] → stat fs q = none := by
      intro q hq _
      apply hempty q ((List.prefix_append _ _).trans hq)
      intro h
      rw [h] at hq
      exact snoc_not_initial _ _ hq
    obtain ⟨hA1, hA2, hA3, hA4⟩ := create_segment_success J homedir templateA fs a tokenA
      bodyA hsepA hv hroot hparent hbelowA hokA
    generalize (create J homedir templateA fs a tokenA).fs = fsA at *
    have hbelowB : ∀ q, blitzBotsDirectory homedir ++ [b] <+: q →
        q ≠ blitzBotsDirectory homedir ++ [b] → stat fsA q = none := by
      intro q hq _
      rw [hA4 q]
      · apply hempty q ((List.prefix_append _ _).trans hq)
        intro h
        rw [h] at hq
        exact snoc_not_initial _ _ hq
      · intro h
        exact hab (child_initial_child.1 (List.prefix_of_prefix_length_le h hq (by simp)))
      · intro h
        exact hab (child_initial_child.1 (hq.trans h)).symm
    obtain ⟨hB1, hB2, hB3, _⟩ := create_segment_success J homedir templateB fsA b tokenB
      bodyB hsepB hv (hA2 _ _ hroot) (hA2 _ _ hparent) hbelowB hokB
    generalize (create J homedir templateB fsA b tokenB).fs = fsB at *
    obtain ⟨ds, hds⟩ := readdirDirectories_of_dir hv (hB2 _ _ (hA2 _ _ hroot))
    refine ⟨ds, by simp [list, hds], fun n => ?_⟩
    rw [mem_readdirDirectories hds]
    constructor
    · intro hm
      rcases hB3 _ _ hm with h | h | h
      · rcases hA3 _ _ h with h' | h' | h'
        · exact absurd h' (stat_none_not_mem (hchild n) _)
        · exact Or.inl (child_initial_child.1 h').symm
        · exact Or.inl (child_initial_child.1 h')
      · exact Or.inr (child_initial_child.1 h).symm
      · exact Or.inr (child_initial_child.1 h)
    · rintro (h | h)
      · subst h
        exact stat_some_mem (hB2 _ _ hA1)
      · subst h
        exact stat_some_mem hB1
  · intro fs hv hroot hempty'
    have hempty := stat_none_of_emptyRoot hempty'
    have := readdirDirectories_nil hv hroot (fun n =>
      stat_none_not_mem (hempty _ (List.prefix_append _ _) (isPrefix_snoc_ne _ _)) _)
    simp [list, this]
  · intro fs hwf hv hroot
    obtain ⟨ds, hds⟩ := readdirDirectories_of_dir hv hroot
    refine ⟨ds, by simp [list, hds], fun n => ?_⟩
    rw [mem_readdirDirectories hds]
    exact ⟨mem_stat_of_nodup hwf.1, stat_some_mem⟩

/-- C7, amended, for the bots `a` and `b` created in the empty sample workspace. -/
theorem list_after_creates_witness :
    (∃ ds, list "/home/u" twoBots = .json (.directories ds) ∧
        ∀ n, n ∈ ds ↔ n = "a" ∨ n = "b") ∧
      list "/home/u" emptyWorkspace = .json (.directories []) :=
  ⟨(list_after_creates sampleCodec "/home/u").1 emptyWorkspace "a" "b" "t" "t"
      (some (.str "code")) (some (.str "code")) (by decide) (by decide) (by decide) (by decide)
      (by decide) (by decide) (by decide) ⟨_, rfl⟩ ⟨_, rfl⟩,
   (list_after_creates sampleCodec "/home/u").2.1 emptyWorkspace (by decide) (by decide)
      (by decide)⟩

end BlitzBots
